import Mathlib

/-!
# myddlmaker: DDL and client-code generation (maker.go)

A shallow embedding of `maker.go`.  Go strings are byte sequences, so a string
is modelled as a list of bytes (`GoString`), a byte being a natural number
below 256.  Lengths, slices and concatenations are therefore byte-exact, as
`len(s)` and `s[:n]` are in Go.
-/

namespace Myddlmaker

/-! ## Go strings -/

/-- A Go string: its bytes, each a natural number below 256. -/
abbrev GoString := List Nat

/-- The rune `utf8.RuneError` (U+FFFD). -/
def RuneError : Nat := 0xFFFD

/-- Go `utf8.AppendRune`, which `strings.Builder.WriteRune` calls: the UTF-8
encoding of the rune `r`; surrogates and values above U+10FFFF are written as
U+FFFD. -/
def encodeRune (r : Nat) : GoString :=
  if r ≤ 0x7F then [r]
  else if r ≤ 0x7FF then [0xC0 + r / 64, 0x80 + r % 64]
  else if 0x10FFFF < r ∨ (0xD800 ≤ r ∧ r ≤ 0xDFFF) then [0xEF, 0xBF, 0xBD]
  else if r ≤ 0xFFFF then [0xE0 + r / 4096, 0x80 + r / 64 % 64, 0x80 + r % 64]
  else [0xF0 + r / 262144, 0x80 + r / 4096 % 64, 0x80 + r / 64 % 64, 0x80 + r % 64]

/-- The bytes of a Lean string literal, as the Go compiler stores a literal:
the UTF-8 encoding of its characters. -/
def lit (s : String) : GoString :=
  s.toList.flatMap (fun c => encodeRune c.toNat)

/-- The tables `first` and `acceptRanges` of Go package `unicode/utf8`: for a
leading byte of a multi-byte sequence, the sequence length and the range
allowed for the second byte; `none` for a byte that cannot lead. -/
def acceptRange (s0 : Nat) : Option (Nat × Nat × Nat) :=
  if 0xC2 ≤ s0 ∧ s0 ≤ 0xDF then some (2, 0x80, 0xBF)
  else if s0 = 0xE0 then some (3, 0xA0, 0xBF)
  else if 0xE1 ≤ s0 ∧ s0 ≤ 0xEC then some (3, 0x80, 0xBF)
  else if s0 = 0xED then some (3, 0x80, 0x9F)
  else if 0xEE ≤ s0 ∧ s0 ≤ 0xEF then some (3, 0x80, 0xBF)
  else if s0 = 0xF0 then some (4, 0x90, 0xBF)
  else if 0xF1 ≤ s0 ∧ s0 ≤ 0xF3 then some (4, 0x80, 0xBF)
  else if s0 = 0xF4 then some (4, 0x80, 0x8F)
  else none

/-- A continuation byte, `0x80 ≤ b ≤ 0xBF`. -/
def isCont (b : Nat) : Bool := decide (0x80 ≤ b ∧ b ≤ 0xBF)

/-- Go `utf8.DecodeRuneInString`: the first rune of `s` and its width in
bytes.  An invalid or truncated encoding gives `(RuneError, 1)`, the empty
string `(RuneError, 0)`. -/
def decodeRune : GoString → Nat × Nat
  | [] => (RuneError, 0)
  | s0 :: rest =>
    if s0 < 0x80 then (s0, 1)
    else
      match acceptRange s0, rest with
      | some (2, lo, hi), s1 :: _ =>
        if lo ≤ s1 ∧ s1 ≤ hi then (s0 % 32 * 64 + s1 % 64, 2) else (RuneError, 1)
      | some (3, lo, hi), s1 :: s2 :: _ =>
        if lo ≤ s1 ∧ s1 ≤ hi ∧ isCont s2 then
          (s0 % 16 * 4096 + s1 % 64 * 64 + s2 % 64, 3)
        else (RuneError, 1)
      | some (_, lo, hi), s1 :: s2 :: s3 :: _ =>
        if lo ≤ s1 ∧ s1 ≤ hi ∧ isCont s2 ∧ isCont s3 then
          (s0 % 8 * 262144 + s1 % 64 * 4096 + s2 % 64 * 64 + s3 % 64, 4)
        else (RuneError, 1)
      | _, _ => (RuneError, 1)

/-- The runes that `for _, r := range s` yields.  The first argument is the
number of bytes still to skip: the loop index advances by the width of the
rune decoded at the current position. -/
def rangeFrom : Nat → GoString → List Nat
  | _, [] => []
  | 0, b :: rest =>
    (decodeRune (b :: rest)).1 :: rangeFrom ((decodeRune (b :: rest)).2 - 1) rest
  | k + 1, _ :: rest => rangeFrom k rest

/-- The runes of `for _, r := range s`, from the start of `s`. -/
def rangeRunes (s : GoString) : List Nat := rangeFrom 0 s

/-- The scan of Go `utf8.ValidString`, with the number of bytes still to skip:
no position decodes as an encoding error (`RuneError` of width 1). -/
def validFrom : Nat → GoString → Bool
  | _, [] => true
  | 0, b :: rest =>
    (b < 0x80 || (decodeRune (b :: rest)).2 ≠ 1)
      && validFrom ((decodeRune (b :: rest)).2 - 1) rest
  | k + 1, _ :: rest => validFrom k rest

/-- Go `utf8.ValidString`: `s` is a sequence of well-formed UTF-8 encodings. -/
def validString (s : GoString) : Bool := validFrom 0 s

/-- Go `strings.Join`. -/
def join (sep : GoString) : List GoString → GoString
  | [] => []
  | [a] => a
  | a :: b :: rest => a ++ sep ++ join sep (b :: rest)

/-- Go `strings.Repeat` for a non-negative count. -/
def strRepeat (s : GoString) : Nat → GoString
  | 0 => []
  | n + 1 => s ++ strRepeat s n

/-! ## Quoting (maker.go, lines 189-240) -/

/-- The loop body of `quote`: a back quote is written before the rune when the
rune is a back quote, then the rune itself. -/
def quoteRune (r : Nat) : GoString :=
  (if r = 96 then [96] else []) ++ encodeRune r

/-- Source function `quote`: quotes s with back quotes, doubling every back
quote rune of s. -/
def quote (s : GoString) : GoString :=
  [96] ++ (rangeRunes s).flatMap quoteRune ++ [96]

/-- Source function `quoteAll`. -/
def quoteAll (strings : List GoString) : List GoString :=
  strings.map quote

/-- The replacement table `stringQuoter`: every old string is a single byte,
so `strings.NewReplacer` builds a byte-wise replacer that maps each byte of
the input independently. -/
def stringQuoter (b : Nat) : GoString :=
  if b = 0 then [92, 48]
  else if b = 39 then [92, 39]
  else if b = 34 then [92, 34]
  else if b = 8 then [92, 98]
  else if b = 10 then [92, 110]
  else if b = 13 then [92, 114]
  else if b = 9 then [92, 116]
  else if b = 26 then [92, 90]
  else if b = 92 then [92, 92]
  else [b]

/-- Source function `stringQuote`: quotes s with single quotes. -/
def stringQuote (s : GoString) : GoString :=
  [39] ++ s.flatMap stringQuoter ++ [39]

/-- Decimal digits, as the verb `%d` of package `fmt` prints a non-negative
integer. -/
def itoa (n : Nat) : GoString :=
  (Nat.toDigits 10 n).map Char.toNat

/-- The verb `%d` of package `fmt` on a Go `int`. -/
def fmtInt (i : Int) : GoString :=
  if i < 0 then lit "-" ++ itoa i.natAbs else itoa i.natAbs

/-- A Go slice expression `s[:n]` on a string: `none` is the run-time panic
"slice bounds out of range". -/
def goSlice (s : GoString) (n : Int) : Option GoString :=
  if 0 ≤ n ∧ n ≤ (s.length : Int) then some (s.take n.toNat) else none

/-! ## Data model

The declarations of `table`, `column`, `Index`, `UniqueIndex` and `ForeignKey`
live outside `maker.go`; the structures below hold the fields `maker.go`
reads. -/

/-- Source type `PrimaryKey` (maker.go, line 242). -/
structure PrimaryKey where
  columns : List GoString
  deriving DecidableEq, Repr

/-- Source function `NewPrimaryKey`. -/
def NewPrimaryKey (field : List GoString) : PrimaryKey := ⟨field⟩

/-- The fields of a `column` read by `maker.go`; `dflt` is the field `def`. -/
structure column where
  name : GoString
  rawName : GoString
  typ : GoString
  size : Int
  unsigned : Bool
  null : Bool
  dflt : GoString
  autoIncr : Bool
  deriving DecidableEq, Repr

/-- The fields of an `Index` read by `maker.go`. -/
structure Index where
  name : GoString
  columns : List GoString
  invisible : Bool
  comment : GoString
  deriving DecidableEq, Repr

/-- The fields of a `UniqueIndex` read by `maker.go`. -/
structure UniqueIndex where
  name : GoString
  columns : List GoString
  invisible : Bool
  comment : GoString
  deriving DecidableEq, Repr

/-- The fields of a `ForeignKey` read by `maker.go`; `onUpdate` and `onDelete`
are strings, empty when no action is set. -/
structure ForeignKey where
  name : GoString
  columns : List GoString
  table : GoString
  references : List GoString
  onUpdate : GoString
  onDelete : GoString
  deriving DecidableEq, Repr

/-- The fields of a `table` read by `maker.go`. -/
structure table where
  name : GoString
  rawName : GoString
  columns : List column
  primaryKey : PrimaryKey
  indexes : List Index
  uniqueIndexes : List UniqueIndex
  foreignKeys : List ForeignKey
  deriving DecidableEq, Repr

/-- Source type `DBConfig`. -/
structure DBConfig where
  Driver : GoString
  Engine : GoString
  Charset : GoString
  deriving DecidableEq, Repr

/-- Source type `Config`; `DB` is a pointer and may be nil. -/
structure Config where
  DB : Option DBConfig
  OutFilePath : GoString
  OutGoFilePath : GoString
  PackageName : GoString
  deriving DecidableEq, Repr

/-- Source type `Maker`, over the type `α` of the structs added.  `config` is
a pointer and may be nil; an entry of `tables` is a pointer and is nil until
`parse` has filled it. -/
structure Maker (α : Type) where
  config : Option Config
  structs : List α
  tables : List (Option table)

/-- Source function `New`. -/
def New {α : Type} (config : Option Config) : Maker α := ⟨config, [], []⟩

/-- Source method `Maker.AddStructs`. -/
def AddStructs {α : Type} (m : Maker α) (structs : List α) : Maker α :=
  ⟨m.config, m.structs ++ structs, m.tables⟩

/-! ## DDL renderer (maker.go, lines 56-187)

Every `generate...` method writes to a `bytes.Buffer`, whose writes cannot
fail; it is modelled by the text it appends. -/

/-- Source method `Maker.generateColumn`. -/
def generateColumn (col : column) : GoString :=
  lit "    " ++ quote col.name ++ lit " " ++ col.typ
    ++ (if col.size ≠ 0 then lit "(" ++ fmtInt col.size ++ lit ")" else [])
    ++ (if col.unsigned then lit " unsigned" else [])
    ++ (if col.null then lit " NULL" else lit " NOT NULL")
    ++ (if col.dflt ≠ [] then lit " DEFAULT " ++ col.dflt else [])
    ++ (if col.autoIncr then lit " AUTO_INCREMENT" else [])
    ++ lit ",\n"

/-- First loop of `Maker.generateIndex`: the line of one regular index. -/
def generateIndexLine (idx : Index) : GoString :=
  lit "    INDEX " ++ quote idx.name ++ lit " ("
    ++ join (lit ", ") (quoteAll idx.columns) ++ lit ")"
    ++ (if idx.invisible then lit " INVISIBLE" else [])
    ++ (if idx.comment ≠ [] then lit " COMMENT " ++ stringQuote idx.comment else [])
    ++ lit ",\n"

/-- Second loop of `Maker.generateIndex`: the line of one unique index. -/
def generateUniqueLine (idx : UniqueIndex) : GoString :=
  lit "    UNIQUE " ++ quote idx.name ++ lit " ("
    ++ join (lit ", ") (quoteAll idx.columns) ++ lit ")"
    ++ (if idx.invisible then lit " INVISIBLE" else [])
    ++ (if idx.comment ≠ [] then lit " COMMENT " ++ stringQuote idx.comment else [])
    ++ lit ",\n"

/-- Third loop of `Maker.generateIndex`: the line of one foreign key. -/
def generateForeignKeyLine (idx : ForeignKey) : GoString :=
  lit "    CONSTRAINT " ++ quote idx.name ++ lit " FOREIGN KEY ("
    ++ join (lit ", ") (quoteAll idx.columns) ++ lit ") REFERENCES "
    ++ quote idx.table ++ lit " ("
    ++ join (lit ", ") (quoteAll idx.references) ++ lit ")"
    ++ (if idx.onUpdate ≠ [] then lit " ON UPDATE " ++ idx.onUpdate else [])
    ++ (if idx.onDelete ≠ [] then lit " ON DELETE " ++ idx.onDelete else [])
    ++ lit ",\n"

/-- Source method `Maker.generateIndex`. -/
def generateIndex (t : table) : GoString :=
  t.indexes.flatMap generateIndexLine
    ++ t.uniqueIndexes.flatMap generateUniqueLine
    ++ t.foreignKeys.flatMap generateForeignKeyLine

/-- The table options `Maker.generateTable` writes after the closing
parenthesis. -/
def tableOptions (config : Option Config) : GoString :=
  match config with
  | none => []
  | some c =>
    match c.DB with
    | none => []
    | some db =>
      (if db.Engine ≠ [] then lit " ENGINE = " ++ db.Engine else [])
        ++ (if db.Charset ≠ [] then lit " DEFAULT CHARACTER SET = " ++ db.Charset else [])

/-- Source method `Maker.generateTable`. -/
def generateTable (config : Option Config) (t : table) : GoString :=
  lit "DROP TABLE IF EXISTS " ++ quote t.name ++ lit ";\n\n"
    ++ lit "CREATE TABLE " ++ quote t.name ++ lit " (\n"
    ++ t.columns.flatMap generateColumn
    ++ generateIndex t
    ++ lit "    PRIMARY KEY (" ++ join (lit ", ") (quoteAll t.primaryKey.columns)
    ++ lit ")\n"
    ++ lit ")"
    ++ tableOptions config
    ++ lit ";\n\n"

/-- The errors `Generate` returns, over the type `E` of the errors of its
collaborators. -/
inductive GenError (E : Type) where
  /-- Wrapped by `fmt.Errorf("myddlmaker: failed to parse: %w", err)`. -/
  | parse (err : E)
  /-- The error returned by the `Write` method of the sink. -/
  | write (err : E)
  /-- The error `io.ErrShortWrite` of `bytes.Buffer.WriteTo`. -/
  | shortWrite
  deriving DecidableEq, Repr

/-- The loop of `Maker.parse` over the structs: the entries of `m.tables`
after the loop and the error of the first struct that does not parse.  The
slice is allocated with one nil entry per struct, so the entry of the failing
struct and all later entries stay nil. -/
def parseLoop {α E : Type} (newTable : α → Except E table) :
    List α → List (Option table) × Option E
  | [] => ([], none)
  | s :: rest =>
    match newTable s with
    | .error err => (none :: rest.map (fun _ => none), some err)
    | .ok tbl => (some tbl :: (parseLoop newTable rest).1, (parseLoop newTable rest).2)

/-- Source method `Maker.parse`; `newTable` is declared outside `maker.go`. -/
def parse {α E : Type} (newTable : α → Except E table) (m : Maker α) :
    Maker α × Option (GenError E) :=
  (⟨m.config, m.structs, (parseLoop newTable m.structs).1⟩,
    (parseLoop newTable m.structs).2.map GenError.parse)

/-- What a call of `Generate` did: `panic` is a run-time panic (a nil table, or
a sink reporting more bytes than it was given); otherwise the state of the
maker, the `Write` calls issued on the sink and the error returned. -/
inductive GenResult (α E : Type) where
  | panic
  | done (m : Maker α) (writes : List GoString) (err : Option (GenError E))

/-- The tables the loop of `Generate` ranges over: `none` when an entry is nil,
where `generateTable` panics on a nil pointer. -/
def derefTables : List (Option table) → Option (List table)
  | [] => some []
  | none :: _ => none
  | some t :: rest => (derefTables rest).map (fun ts => t :: ts)

/-- Source method `Maker.Generate`.  The sink `w` is its `Write` method, which
returns the number of bytes written and an error; `bytes.Buffer.WriteTo` calls
it once with the whole text. -/
def Generate {α E : Type} (newTable : α → Except E table)
    (w : GoString → Nat × Option E) (m : Maker α) : GenResult α E :=
  match parse newTable m with
  | (m1, some err) => .done m1 [] (some err)
  | (m1, none) =>
    match derefTables m1.tables with
    | none => .panic
    | some tables =>
      let buf := lit "SET foreign_key_checks=0;\n"
        ++ tables.flatMap (generateTable m1.config)
        ++ lit "SET foreign_key_checks=1;\n"
      match w buf with
      | (n, werr) =>
        if n > buf.length then .panic
        else
          match werr with
          | some err => .done m1 [buf] (some (GenError.write err))
          | none =>
            if n ≠ buf.length then .done m1 [buf] (some GenError.shortWrite)
            else .done m1 [buf] none

/-! ## Client code renderer: Insert (maker.go, lines 315-369)

The verb `%q` of package `fmt` (`strconv.Quote`) is not modelled: it is the
parameter `fmtQ`.  The Go compiler reads the literal `fmtQ s` back as `s`. -/

/-- The loop of `generateGoTableInsert` over the columns (lines 325-332): the
slices `columns`, `placeholders` and `values`, from which auto-increment
columns are left out by `continue`. -/
def insertFields : List column → List GoString × List GoString × List GoString
  | [] => ([], [], [])
  | c :: rest =>
    if c.autoIncr then insertFields rest
    else
      (quote c.name :: (insertFields rest).1,
        lit "?" :: (insertFields rest).2.1,
        (lit "v." ++ c.rawName) :: (insertFields rest).2.2)

/-- The variable `strPlaceholders` (line 334). -/
def strPlaceholders (t : table) : GoString :=
  lit ", (" ++ join (lit ", ") (insertFields t.columns).2.1 ++ lit ")"

/-- The variable `maxStructCount` (lines 335-338), for a table with at least
one placeholder: the quotient is clamped to `maxMaxStructCount = 32`. -/
def maxStructCount (t : table) : Nat :=
  if 65535 / (insertFields t.columns).2.1.length > 32 then 32
  else 65535 / (insertFields t.columns).2.1.length

/-- The variable `insert` (line 339). -/
def insertHead (t : table) : GoString :=
  lit "INSERT INTO " ++ quote t.name ++ lit " ("
    ++ join (lit ", ") (insertFields t.columns).1 ++ lit ") VALUES"
    ++ lit " (" ++ join (lit ", ") (insertFields t.columns).2.1 ++ lit ")"

/-- The constants and slice coefficients that the generated function `Insert`
is built from. -/
structure InsertConsts where
  /-- Value of the constant `q`. -/
  q : GoString
  /-- Value of the constant `fieldCount`. -/
  fieldCount : Nat
  /-- Value of the constant `maxStructCount`. -/
  maxStructCount : Nat
  /-- The factor of `i` in the slice `q[:i*%d+%d]`. -/
  scale : Nat
  /-- The offset in the slice `q[:i*%d+%d]`. -/
  offset : Int
  deriving DecidableEq, Repr

/-- The values `generateGoTableInsert` substitutes into the generated
function (lines 340-342 and 368); the constant `q` is the concatenation of its
two literals. -/
def insertConsts (t : table) : InsertConsts :=
  ⟨insertHead t ++ strRepeat (strPlaceholders t) (maxStructCount t - 1),
    (insertFields t.columns).2.1.length,
    maxStructCount t,
    (strPlaceholders t).length,
    ((insertHead t).length : Int) - ((strPlaceholders t).length : Int)⟩

/-- The text of the loop of the generated function, written by the last
`Fprintf` of `generateGoTableInsert` (lines 344-368): the template with the
joined `values`, `len(strPlaceholders)` and `len(insert)-len(strPlaceholders)`
substituted. -/
def insertLoopText (t : table) : GoString :=
  lit "count := len(values)\n\tif count > maxStructCount \x7b\n\t\tcount = maxStructCount\n\t\x7d\n\targs = make([]any, 0, count*fieldCount)\n\tfor len(values) > 0 \x7b\n\t\ti := len(values)\n\t\tif i > maxStructCount \x7b\n\t\t\ti = maxStructCount\n\t\t\x7d\n\t\tvals, rest := values[:i], values[i:]\n\t\targs = args[:0]\n\t\tfor _, v := range vals \x7b\n\t\t\targs = append(args, "
    ++ join (lit ", ") (insertFields t.columns).2.2
    ++ lit ")\n\t\t\x7d\n\t\t_, err := execer.ExecContext(ctx, q[:i*"
    ++ itoa (insertConsts t).scale
    ++ lit "+"
    ++ fmtInt (insertConsts t).offset
    ++ lit "], args...)\n\t\tif err != nil \x7b\n\t\t\treturn err\n\t\t\x7d\n\t\tvalues = rest\n\t\x7d\n\treturn nil\n\x7d\n\n"

/-- Source method `Maker.generateGoTableInsert`: the text written, or `none`
when the method panics: an integer division by zero at line 335 when there is
no placeholder, a negative count passed to `strings.Repeat` at line 340 when
`maxStructCount` is zero. -/
def generateGoTableInsert (fmtQ : GoString → GoString) (t : table) : Option GoString :=
  if (insertFields t.columns).2.1.length = 0 then none
  else if ((maxStructCount t : Int) - 1 < 0) then none
  else
    some (lit "func Insert" ++ t.rawName
      ++ lit "(ctx context.Context, execer execer, values ...*" ++ t.rawName
      ++ lit ") error \x7b"
      ++ lit "const q = " ++ fmtQ (insertHead t) ++ lit "+\n"
      ++ fmtQ (strRepeat (strPlaceholders t) (maxStructCount t - 1)) ++ lit "\n"
      ++ lit "const fieldCount = " ++ itoa (insertConsts t).fieldCount ++ lit "\n"
      ++ lit "const maxStructCount = " ++ itoa (insertConsts t).maxStructCount ++ lit "\n"
      ++ insertLoopText t)

/-! ### The loop of the `Insert` template

The loop spelled out by the template of lines 344-366, read as a program in
which `args` is a declared slice.  The emitted text assigns `args` with `=`
(lines 348, 355, 357) and never declares it, so the generated file itself does
not build; the definitions below describe the loop of the template and its
constants, not a function that can be called.  A record has type `V` and
`fields v` are the arguments `v.F1, ..., v.Fn` appended for it.  One call of
`ExecContext` is the statement text and the argument list.  The executor is a
function of the calls it has already received and of the current call,
returning the error of the call. -/

/-- One call of `execer.ExecContext`: statement and arguments. -/
abbrev ExecCall (A : Type) := GoString × List A

/-- How a run of the loop of the template ends: the loop is still running
when the fuel is used up, a slice expression panics, or the function returns
after the listed calls with an error or nil. -/
inductive Outcome (A E : Type) where
  | running
  | panic
  | ret (calls : List (ExecCall A)) (err : Option E)
  deriving DecidableEq, Repr

/-- The loop `for len(values) > 0` of the template (lines 349-364), with `args`
read as a declared slice, run for at most `fuel` iterations after the calls
`hist`. -/
def insertRun {V A E : Type} (c : InsertConsts) (fields : V → List A)
    (exec : List (ExecCall A) → ExecCall A → Option E) :
    Nat → List (ExecCall A) → List V → Outcome A E
  | 0, hist, values =>
    if values.length > 0 then .running else .ret hist none
  | fuel + 1, hist, values =>
    if values.length > 0 then
      let i := if values.length > c.maxStructCount then c.maxStructCount else values.length
      match goSlice c.q ((i : Int) * (c.scale : Int) + c.offset) with
      | none => .panic
      | some stmt =>
        match exec hist (stmt, (values.take i).flatMap fields) with
        | some err => .ret (hist ++ [(stmt, (values.take i).flatMap fields)]) (some err)
        | none =>
          insertRun c fields exec fuel
            (hist ++ [(stmt, (values.take i).flatMap fields)]) (values.drop i)
    else .ret hist none

/-- The loop of the template of `Insert`, started with no call issued yet. -/
def Insert {V A E : Type} (c : InsertConsts) (fields : V → List A)
    (exec : List (ExecCall A) → ExecCall A → Option E) (fuel : Nat) (values : List V) :
    Outcome A E :=
  insertRun c fields exec fuel [] values

/-! ## Client code renderer: Update (maker.go, lines 401-434) -/

/-- The slices built by the labelled loop of `generateGoTableUpdate`. -/
structure UpdateFields where
  setFields : List GoString
  goFields : List GoString
  params : List GoString
  conditions : List GoString
  deriving DecidableEq, Repr

/-- The loop `LOOP` of `generateGoTableUpdate` (lines 407-418): a column whose
name equals some key of the primary key goes to `params` and `conditions`
(once, by `continue LOOP`), every other column to `setFields` and `goFields`. -/
def updateFields (keys : List GoString) : List column → UpdateFields
  | [] => ⟨[], [], [], []⟩
  | c :: rest =>
    if keys.any (fun key => key == c.name) then
      ⟨(updateFields keys rest).setFields,
        (updateFields keys rest).goFields,
        (lit "value." ++ c.rawName) :: (updateFields keys rest).params,
        (quote c.name ++ lit " = ?") :: (updateFields keys rest).conditions⟩
    else
      ⟨(quote c.name ++ lit " = ?") :: (updateFields keys rest).setFields,
        (lit "value." ++ c.rawName) :: (updateFields keys rest).goFields,
        (updateFields keys rest).params,
        (updateFields keys rest).conditions⟩

/-- The variable `update` (lines 420-425). -/
def updateStatement (t : table) : GoString :=
  lit "UPDATE " ++ quote t.name ++ lit " SET "
    ++ join (lit ", ") (updateFields t.primaryKey.columns t.columns).setFields
    ++ lit " WHERE "
    ++ join (lit " AND ") (updateFields t.primaryKey.columns t.columns).conditions

/-- The body of the generated function `Update`, between its header and its
closing brace (lines 427-432). -/
def updateBody (fmtQ : GoString → GoString) (t : table) : GoString :=
  if (updateFields t.primaryKey.columns t.columns).setFields.length ≠ 0 then
    lit "_, err := execer.ExecContext(ctx, " ++ fmtQ (updateStatement t) ++ lit ", "
      ++ join (lit ", ") (updateFields t.primaryKey.columns t.columns).goFields
      ++ lit ", "
      ++ join (lit ", ") (updateFields t.primaryKey.columns t.columns).params
      ++ lit ")\n"
      ++ lit "return err\n"
  else lit "return nil\n"

/-- Source method `Maker.generateGoTableUpdate`. -/
def generateGoTableUpdate (fmtQ : GoString → GoString) (t : table) : GoString :=
  lit "func Update" ++ t.rawName
    ++ lit "(ctx context.Context, execer execer, value *" ++ t.rawName
    ++ lit ") error \x7b\n"
    ++ updateBody fmtQ t
    ++ lit "\x7d\n\n"

/-! ## Client code renderer: Select (maker.go, lines 371-399) -/

/-- The slices built by the loop of `generateGoTableSelect`. -/
structure SelectFields where
  fields : List GoString
  goFields : List GoString
  params : List GoString
  conditions : List GoString
  deriving DecidableEq, Repr

/-- The inner loop of `generateGoTableSelect` (lines 379-384) for one column:
one entry of `params` and one of `conditions` for every key of the primary key
that equals the name of the column; the loop has no `break`. -/
def selectKeys (c : column) : List GoString → List GoString × List GoString
  | [] => ([], [])
  | key :: rest =>
    if key == c.name then
      ((lit "primaryKeys." ++ c.rawName) :: (selectKeys c rest).1,
        (quote c.name ++ lit " = ?") :: (selectKeys c rest).2)
    else selectKeys c rest

/-- The loop of `generateGoTableSelect` over the columns (lines 376-385). -/
def selectFields (keys : List GoString) : List column → SelectFields
  | [] => ⟨[], [], [], []⟩
  | c :: rest =>
    ⟨quote c.name :: (selectFields keys rest).fields,
      (lit "&v." ++ c.rawName) :: (selectFields keys rest).goFields,
      (selectKeys c keys).1 ++ (selectFields keys rest).params,
      (selectKeys c keys).2 ++ (selectFields keys rest).conditions⟩

/-- The variable `sqlSelect` (lines 387-392). -/
def sqlSelect (t : table) : GoString :=
  lit "SELECT " ++ join (lit ", ") (selectFields t.primaryKey.columns t.columns).fields
    ++ lit " FROM " ++ quote t.name
    ++ lit " WHERE "
    ++ join (lit " AND ") (selectFields t.primaryKey.columns t.columns).conditions

/-- Source method `Maker.generateGoTableSelect`. -/
def generateGoTableSelect (fmtQ : GoString → GoString) (t : table) : GoString :=
  lit "func Select" ++ t.rawName
    ++ lit "(ctx context.Context, queryer queryer, primaryKeys *" ++ t.rawName
    ++ lit ") (*" ++ t.rawName ++ lit ", error) \x7b\n"
    ++ lit "var v " ++ t.rawName ++ lit "\n"
    ++ lit "row := queryer.QueryRowContext(ctx, " ++ fmtQ (sqlSelect t) ++ lit ", "
    ++ join (lit ", ") (selectFields t.primaryKey.columns t.columns).params ++ lit ")\n"
    ++ lit "if err := row.Scan("
    ++ join (lit ", ") (selectFields t.primaryKey.columns t.columns).goFields
    ++ lit "); err != nil \x7b\n return nil, err \n\x7d\n"
    ++ lit "return &v, nil\n"
    ++ lit "\x7d\n\n"

/-! ## Reference definitions

Definitions that follow the words of the specification; the theorems compare
them with the definitions taken from the source. -/

/-- Unescaping, first step: strip the first and the last character. -/
def stripDelims (q : GoString) : GoString := (q.drop 1).dropLast

/-- Unescaping, second step: read left to right and collapse every doubled
back quote into a single back quote. -/
def collapse : GoString → GoString
  | [] => []
  | [b] => [b]
  | a :: b :: rest =>
    if a = 96 ∧ b = 96 then 96 :: collapse rest else a :: collapse (b :: rest)

/-- Unescaping of a quoted identifier. -/
def unquote (q : GoString) : GoString := collapse (stripDelims q)

/-- The text in which every back quote byte is doubled. -/
def doubleQuotes (s : GoString) : GoString :=
  s.flatMap (fun b => if b = 96 then [96, 96] else [b])

/-- What a reader of a string-literal body sees: a plain byte, or a backslash
escape with the byte that follows the backslash. -/
inductive Tok where
  | plain (b : Nat)
  | esc (c : Nat)
  deriving DecidableEq, Repr

/-- Read a string-literal body left to right, each backslash consuming the
byte after it; `none` when the body ends in the middle of an escape. -/
def scanBody : GoString → Option (List Tok)
  | [] => some []
  | [b] => if b = 92 then none else some [Tok.plain b]
  | a :: b :: rest =>
    if a = 92 then (scanBody rest).map (fun ts => Tok.esc b :: ts)
    else (scanBody (b :: rest)).map (fun ts => Tok.plain a :: ts)

/-- The escape set of the specification: NUL, backslash, single quote, double
quote, backspace, newline, carriage return, tab and Ctrl-Z are read as the
escapes `\0 \\ \' \" \b \n \r \t \Z`; every other byte is plain. -/
def escapeOf (b : Nat) : Tok :=
  if b = 0 then Tok.esc 48
  else if b = 92 then Tok.esc 92
  else if b = 39 then Tok.esc 39
  else if b = 34 then Tok.esc 34
  else if b = 8 then Tok.esc 98
  else if b = 10 then Tok.esc 110
  else if b = 13 then Tok.esc 114
  else if b = 9 then Tok.esc 116
  else if b = 26 then Tok.esc 90
  else Tok.plain b

/-- The non-auto-increment columns of a table, in declaration order. -/
def nonAutoColumns (t : table) : List column :=
  t.columns.filter (fun c => !c.autoIncr)

/-- The number F of non-auto-increment columns. -/
def nonAutoCount (t : table) : Nat := (nonAutoColumns t).length

/-- The batch cap of the specification, `min(floor(65535 / F), 32)`. -/
def batchCap (F : Nat) : Nat := min (65535 / F) 32

/-- One value tuple of F placeholders, `(?, ..., ?)`. -/
def valueTuple (F : Nat) : GoString :=
  lit "(" ++ join (lit ", ") (List.replicate F (lit "?")) ++ lit ")"

/-- The statement built independently for k records: the INSERT head, with
the quoted non-auto-increment column names in declaration order, followed by
k value tuples separated by a comma and a space. -/
def insertStatementFor (t : table) (k : Nat) : GoString :=
  lit "INSERT INTO " ++ quote t.name ++ lit " ("
    ++ join (lit ", ") ((nonAutoColumns t).map (fun c => quote c.name))
    ++ lit ") VALUES "
    ++ join (lit ", ") (List.replicate k (valueTuple (nonAutoCount t)))

/-- A table with 65536 columns, none of them auto-increment. -/
def wideTable : table :=
  ⟨lit "wide", lit "Wide",
    List.replicate 65536 ⟨lit "c", lit "C", lit "INTEGER", 0, false, false, [], false⟩,
    ⟨[lit "c"]⟩, [], [], []⟩

/-- The input cut into chunks of at most `cap` records, in input order; the
first argument bounds the number of chunks. -/
def chunksOf {V : Type} (cap : Nat) : Nat → List V → List (List V)
  | 0, _ => []
  | fuel + 1, vs =>
    match vs with
    | [] => []
    | v :: rest => (v :: rest).take cap :: chunksOf cap fuel ((v :: rest).drop cap)

/-- The chunks of at most `cap` records of the whole input. -/
def batches {V : Type} (cap : Nat) (values : List V) : List (List V) :=
  chunksOf cap values.length values

/-- The call issued for one chunk: the statement for as many records as the
chunk holds, and the fields of its records in order. -/
def callOf {V A : Type} (t : table) (fields : V → List A) (chunk : List V) : ExecCall A :=
  (insertStatementFor t chunk.length, chunk.flatMap fields)

/-- Issue the planned calls one after the other, after the calls `hist`, and
stop at the first call the executor fails: the calls issued and the error. -/
def issue {A E : Type} (exec : List (ExecCall A) → ExecCall A → Option E) :
    List (ExecCall A) → List (ExecCall A) → List (ExecCall A) × Option E
  | hist, [] => (hist, none)
  | hist, c :: cs =>
    match exec hist c with
    | some err => (hist ++ [c], some err)
    | none => issue exec (hist ++ [c]) cs

/-- The table of the struct `Foo1` of maker_test.go: the single column `id`,
which is the primary key. -/
def foo1 : table :=
  ⟨lit "foo1", lit "Foo1",
    [⟨lit "id", lit "ID", lit "INTEGER", 0, false, false, [], false⟩],
    ⟨[lit "id"]⟩, [], [], []⟩

/-- The table of the struct `Foo8` of maker_test.go: an auto-increment column
`id`, a column `name` and an invisible index on `name`. -/
def foo8 : table :=
  ⟨lit "foo8", lit "Foo8",
    [⟨lit "id", lit "ID", lit "INTEGER", 0, false, false, [], true⟩,
      ⟨lit "name", lit "Name", lit "VARCHAR", 191, false, false, [], false⟩],
    ⟨[lit "id"]⟩, [⟨lit "idx_name", [lit "name"], true, []⟩], [], []⟩

/-- The columns of a table that the primary key names, in declaration
order. -/
def keyColumns (t : table) : List column :=
  t.columns.filter (fun c => decide (c.name ∈ t.primaryKey.columns))

/-- The columns of a table that the primary key does not name, in declaration
order. -/
def nonKeyColumns (t : table) : List column :=
  t.columns.filter (fun c => !decide (c.name ∈ t.primaryKey.columns))

/-- One term of a SET or WHERE clause: the quoted column name, an equals sign
and a placeholder. -/
def columnTerm (c : column) : GoString := quote c.name ++ lit " = ?"

/-- The configuration of `testMaker` in maker_test.go, as far as `DBConfig`
can hold it: engine InnoDB and character set utf8mb4; `DBConfig` has no field
for a collation. -/
def testConfig : Config :=
  ⟨some ⟨[], lit "InnoDB", lit "utf8mb4"⟩, [], [], []⟩

/-- The table of the struct `Foo11` of maker_test.go, named `foo11` by
default. -/
def foo11 : table :=
  ⟨lit "foo11", lit "Foo11",
    [⟨lit "id", lit "ID", lit "INTEGER", 0, false, false, [], true⟩,
      ⟨lit "point", lit "Point", lit "GEOMETRY", 0, false, false, [], false⟩],
    ⟨[lit "id"]⟩, [], [], []⟩

/-- The table of the struct `Foo12` of maker_test.go, whose method `Table`
names it `foo11` too. -/
def foo12 : table :=
  ⟨lit "foo11", lit "Foo12",
    [⟨lit "id", lit "ID", lit "INTEGER", 0, false, false, [], false⟩],
    ⟨[lit "id"]⟩, [], [], []⟩

/-- The table of the struct `Foo14` of maker_test.go: the column `id`, and a
primary key, an index and a unique index that name `unknown_column`. -/
def foo14 : table :=
  ⟨lit "foo14", lit "Foo14",
    [⟨lit "id", lit "ID", lit "INTEGER", 0, false, false, [], false⟩],
    ⟨[lit "unknown_column"]⟩,
    [⟨lit "idx", [lit "unknown_column"], false, []⟩],
    [⟨lit "uniq", [lit "unknown_column"], false, []⟩], []⟩

/-- A scanner reading the inside of a quoted identifier, after the opening
back quote: a doubled back quote is a literal back quote, a single one closes
the identifier.  It returns the characters of the identifier and the input
left after the closing back quote; `none` when the identifier is not closed. -/
def scanQuoted : GoString → Option (GoString × GoString)
  | [] => none
  | [b] => if b = 96 then some ([], []) else none
  | a :: b :: rest =>
    if a = 96 then
      if b = 96 then (scanQuoted rest).map (fun r => (96 :: r.1, r.2))
      else some ([], b :: rest)
    else (scanQuoted (b :: rest)).map (fun r => (a :: r.1, r.2))

/-- A scanner reading one quoted identifier token at the start of the input. -/
def scanIdent : GoString → Option (GoString × GoString)
  | [] => none
  | b :: rest => if b = 96 then scanQuoted rest else none

/-- Whether every maximal run of back quotes has even length; the flag tells
whether the run in progress has odd length so far. -/
def runsEvenFrom : Bool → GoString → Bool
  | odd, [] => !odd
  | odd, b :: rest =>
    if b = 96 then runsEvenFrom (!odd) rest else !odd && runsEvenFrom false rest

/-- Whether every maximal run of back quotes of the text has even length. -/
def runsEven (s : GoString) : Bool := runsEvenFrom false s

/-- The MySQL escape table read backwards: the character that stands for the
byte after a backslash. -/
def unescapeChar (c : Nat) : Nat :=
  if c = 48 then 0
  else if c = 39 then 39
  else if c = 34 then 34
  else if c = 98 then 8
  else if c = 110 then 10
  else if c = 114 then 13
  else if c = 116 then 9
  else if c = 90 then 26
  else if c = 92 then 92
  else c

/-- The byte a token of a string-literal body stands for. -/
def decodeTok : Tok → Nat
  | Tok.plain b => b
  | Tok.esc c => unescapeChar c

/-- Decoding of a string-literal body with the MySQL escape table; `none` when
the body ends in the middle of an escape. -/
def decodeBody (body : GoString) : Option GoString :=
  (scanBody body).map (fun ts => ts.map decodeTok)

/-- The body of a string literal: the text without its first and last
character. -/
def literalBody (q : GoString) : GoString := (q.drop 1).dropLast

/-- The columns that the WHERE terms of the Select statement stand for: a
column once for every key of the primary key that equals its name, in
declaration order. -/
def selectMatches (keys : List GoString) (cols : List column) : List column :=
  cols.flatMap (fun c => (keys.filter (fun key => key == c.name)).map (fun _ => c))

/-- The verb `%q` of package `fmt` on a string of printable ASCII characters
without a double quote or a backslash, which `strconv.Quote` leaves unescaped:
the string between double quotes. -/
def fmtQPlain (s : GoString) : GoString := [34] ++ s ++ [34]

/-- Whether the text starts with the given pattern. -/
def startsWith : GoString → GoString → Bool
  | [], _ => true
  | _ :: _, [] => false
  | a :: p, b :: s => a == b && startsWith p s

/-- Whether the pattern occurs somewhere in the text. -/
def containsText (p : GoString) : GoString → Bool
  | [] => startsWith p []
  | b :: s => startsWith p (b :: s) || containsText p s

/-! # Properties -/

/-! ## Helper lemmas: UTF-8 -/

theorem rangeFrom_skip (k : Nat) (s : GoString) :
    rangeFrom k s = rangeFrom 0 (s.drop k) := by
  induction k generalizing s with
  | zero => simp
  | succ k ih =>
    cases s with
    | nil => simp [rangeFrom]
    | cons b rest => simp [rangeFrom, ih rest]

theorem validFrom_skip (k : Nat) (s : GoString) :
    validFrom k s = validFrom 0 (s.drop k) := by
  induction k generalizing s with
  | zero => simp
  | succ k ih =>
    cases s with
    | nil => simp [validFrom]
    | cons b rest => simp [validFrom, ih rest]

theorem encodeRune_two (b s1 : Nat) (hb : 0xC2 ≤ b ∧ b ≤ 0xDF)
    (h1 : 0x80 ≤ s1 ∧ s1 ≤ 0xBF) :
    encodeRune (b % 32 * 64 + s1 % 64) = [b, s1] := by
  unfold encodeRune
  rw [if_neg (by omega), if_pos (by omega)]
  congr 1
  · omega
  · congr 1
    omega

theorem encodeRune_three (b s1 s2 : Nat) (hb : 0xE0 ≤ b ∧ b ≤ 0xEF)
    (h1 : 0x80 ≤ s1 ∧ s1 ≤ 0xBF) (h2 : 0x80 ≤ s2 ∧ s2 ≤ 0xBF)
    (hlo : b = 0xE0 → 0xA0 ≤ s1) (hhi : b = 0xED → s1 ≤ 0x9F) :
    encodeRune (b % 16 * 4096 + s1 % 64 * 64 + s2 % 64) = [b, s1, s2] := by
  unfold encodeRune
  rw [if_neg (by omega), if_neg (by omega), if_neg (by omega), if_pos (by omega)]
  congr 1
  · omega
  · congr 1
    · omega
    · congr 1
      omega

theorem encodeRune_four (b s1 s2 s3 : Nat) (hb : 0xF0 ≤ b ∧ b ≤ 0xF4)
    (h1 : 0x80 ≤ s1 ∧ s1 ≤ 0xBF) (h2 : 0x80 ≤ s2 ∧ s2 ≤ 0xBF)
    (h3 : 0x80 ≤ s3 ∧ s3 ≤ 0xBF)
    (hlo : b = 0xF0 → 0x90 ≤ s1) (hhi : b = 0xF4 → s1 ≤ 0x8F) :
    encodeRune (b % 8 * 262144 + s1 % 64 * 4096 + s2 % 64 * 64 + s3 % 64)
      = [b, s1, s2, s3] := by
  unfold encodeRune
  rw [if_neg (by omega), if_neg (by omega), if_neg (by omega), if_neg (by omega)]
  congr 1
  · omega
  · congr 1
    · omega
    · congr 1
      · omega
      · congr 1
        omega

theorem acceptRange_spec (b sz lo hi : Nat) (h : acceptRange b = some (sz, lo, hi)) :
    (sz = 2 ∧ 0xC2 ≤ b ∧ b ≤ 0xDF ∧ lo = 0x80 ∧ hi = 0xBF)
    ∨ (sz = 3 ∧ 0xE0 ≤ b ∧ b ≤ 0xEF ∧ 0x80 ≤ lo ∧ hi ≤ 0xBF
        ∧ (b = 0xE0 → lo = 0xA0) ∧ (b = 0xED → hi = 0x9F))
    ∨ (sz = 4 ∧ 0xF0 ≤ b ∧ b ≤ 0xF4 ∧ 0x80 ≤ lo ∧ hi ≤ 0xBF
        ∧ (b = 0xF0 → lo = 0x90) ∧ (b = 0xF4 → hi = 0x8F)) := by
  unfold acceptRange at h
  split_ifs at h <;> simp at h <;> omega

/-- A position that is not an encoding error decodes to a rune whose encoding
is the bytes consumed. -/
theorem decodeRune_step (b : Nat) (rest : GoString)
    (h : b < 0x80 ∨ (decodeRune (b :: rest)).2 ≠ 1) :
    b :: rest = encodeRune (decodeRune (b :: rest)).1
        ++ rest.drop ((decodeRune (b :: rest)).2 - 1)
      ∧ (b < 0x80 → (decodeRune (b :: rest)).1 = b)
      ∧ (0x80 ≤ b → 0x80 ≤ (decodeRune (b :: rest)).1
          ∧ ∀ x ∈ encodeRune (decodeRune (b :: rest)).1, 0x80 ≤ x) := by
  by_cases hb : b < 0x80
  · have hb2 : b ≤ 127 := by omega
    simp [decodeRune, hb, encodeRune, hb2]
  · have h1 : (decodeRune (b :: rest)).2 ≠ 1 := by
      rcases h with h | h
      · exact absurd h hb
      · exact h
    unfold decodeRune at h1 ⊢
    simp only [hb, if_false] at h1 ⊢
    split at h1
    · rename_i lo hi s1 tl hacc
      have hr := acceptRange_spec _ _ _ _ hacc
      by_cases hc : lo ≤ s1 ∧ s1 ≤ hi
      · simp only [hc, and_self, if_true] at h1 ⊢
        have he := encodeRune_two b s1 (by omega) (by omega)
        rw [he]
        simp
        omega
      · simp [hc] at h1
    · rename_i lo hi s1 s2 tl hacc
      have hr := acceptRange_spec _ _ _ _ hacc
      by_cases hc : lo ≤ s1 ∧ s1 ≤ hi ∧ isCont s2 = true
      · simp only [hc, and_self, if_true] at h1 ⊢
        have h2 : 0x80 ≤ s2 ∧ s2 ≤ 0xBF := by simpa [isCont] using hc.2.2
        have he := encodeRune_three b s1 s2 (by omega) (by omega) h2 (by omega) (by omega)
        rw [he]
        simp
        omega
      · simp [hc] at h1
    · rename_i sz lo hi s1 s2 s3 tl hne2 hne3 hacc
      have hr := acceptRange_spec _ _ _ _ hacc
      by_cases hc : lo ≤ s1 ∧ s1 ≤ hi ∧ isCont s2 = true ∧ isCont s3 = true
      · simp only [hc, and_self, if_true] at h1 ⊢
        have h2 : 0x80 ≤ s2 ∧ s2 ≤ 0xBF := by simpa [isCont] using hc.2.2.1
        have h3 : 0x80 ≤ s3 ∧ s3 ≤ 0xBF := by simpa [isCont] using hc.2.2.2
        have hne2 : sz ≠ 2 := hne2
        have hne3 : sz ≠ 3 := hne3
        have he := encodeRune_four b s1 s2 s3 (by omega) (by omega) h2 h3 (by omega) (by omega)
        rw [he]
        simp
        omega
      · simp [hc] at h1
    · simp at h1

/-! ## Identifier quoting -/

theorem doubleQuotes_of_high (enc : GoString) (h : ∀ x ∈ enc, 0x80 ≤ x) :
    doubleQuotes enc = enc := by
  induction enc with
  | nil => rfl
  | cons a t ih =>
    have ha : a ≠ 96 := by
      have := h a (by simp)
      omega
    have ht := ih (fun x hx => h x (by simp [hx]))
    simp only [doubleQuotes, List.flatMap_cons] at ht ⊢
    simp [ha, ht]

theorem doubleQuotes_append (a b : GoString) :
    doubleQuotes (a ++ b) = doubleQuotes a ++ doubleQuotes b := by
  simp [doubleQuotes]

/-- On well-formed UTF-8 the rune loop of `quote` copies the bytes of the
input and doubles each back quote byte. -/
theorem quoteLoop_valid (n : Nat) :
    ∀ s : GoString, s.length ≤ n → validFrom 0 s = true →
      (rangeFrom 0 s).flatMap quoteRune = doubleQuotes s := by
  induction n with
  | zero =>
    intro s hs _
    have : s = [] := List.length_eq_zero.mp (by omega)
    subst this
    rfl
  | succ n ih =>
    intro s hs hv
    cases s with
    | nil => rfl
    | cons b rest =>
      simp only [validFrom, Bool.and_eq_true, Bool.or_eq_true, decide_eq_true_eq] at hv
      obtain ⟨hv1, hv2⟩ := hv
      have hstep := decodeRune_step b rest (by
        rcases hv1 with h | h
        · exact Or.inl h
        · exact Or.inr (by simpa using h))
      obtain ⟨hsplit, hlow, hhigh⟩ := hstep
      rw [validFrom_skip] at hv2
      have hlen : (rest.drop ((decodeRune (b :: rest)).2 - 1)).length ≤ n := by
        simp only [List.length_drop, List.length_cons] at hs ⊢
        omega
      have hrec := ih _ hlen hv2
      simp only [rangeFrom, List.flatMap_cons]
      rw [rangeFrom_skip, hrec]
      conv_rhs => rw [hsplit]
      rw [doubleQuotes_append]
      congr 1
      by_cases hb : b < 0x80
      · rw [hlow hb]
        have hb2 : b ≤ 127 := by omega
        by_cases h96 : b = 96 <;> simp [quoteRune, encodeRune, doubleQuotes, hb2, h96]
      · have hh := hhigh (by omega)
        rw [doubleQuotes_of_high _ hh.2]
        have : (decodeRune (b :: rest)).1 ≠ 96 := by omega
        simp [quoteRune, this]

theorem quote_of_valid (s : GoString) (h : validString s = true) :
    quote s = [96] ++ doubleQuotes s ++ [96] := by
  unfold quote rangeRunes
  rw [quoteLoop_valid s.length s (le_refl _) h]

theorem collapse_doubleQuotes (s : GoString) : collapse (doubleQuotes s) = s := by
  induction s with
  | nil => rfl
  | cons b t ih =>
    by_cases hb : b = 96
    · subst hb
      have : doubleQuotes (96 :: t) = 96 :: 96 :: doubleQuotes t := by
        simp [doubleQuotes]
      rw [this]
      simp [collapse, ih]
    · have : doubleQuotes (b :: t) = b :: doubleQuotes t := by
        simp [doubleQuotes, hb]
      rw [this]
      cases hd : doubleQuotes t with
      | nil =>
        rw [hd] at ih
        simp [collapse, ← ih]
      | cons a r =>
        rw [hd] at ih
        simp [collapse, hb, ih]

theorem stripDelims_wrap (x : GoString) : stripDelims ([96] ++ x ++ [96]) = x := by
  simp [stripDelims]

/-- C1, as stated, fails: the name consisting of the single byte 0xFF is not
valid UTF-8; the rune loop of `quote` reads it as U+FFFD and writes the three
bytes EF BF BD, so unescaping the quoted form does not return the name. -/
theorem quote_loses_invalid_utf8 :
    quote [0xFF] = [96, 0xEF, 0xBF, 0xBD, 96]
      ∧ unquote (quote [0xFF]) = [0xEF, 0xBF, 0xBD]
      ∧ unquote (quote [0xFF]) ≠ [0xFF] := by
  decide

/-- C1, amended: for every name s that is valid UTF-8, stripping the first and
last character of quote(s) and collapsing every doubled back quote returns
exactly s. -/
theorem quote_roundtrip (s : GoString) (h : validString s = true) :
    unquote (quote s) = s := by
  rw [quote_of_valid s h]
  unfold unquote
  rw [stripDelims_wrap, collapse_doubleQuotes]

/-- Witness of `quote_roundtrip` at the name a, back quote, é, b. -/
theorem quote_roundtrip_witness :
    validString (lit "a`éb") = true ∧ unquote (quote (lit "a`éb")) = lit "a`éb" :=
  ⟨by decide, quote_roundtrip (lit "a`éb") (by decide)⟩

/-! ## String-literal quoting -/

theorem scanBody_stringQuoter (b : Nat) (rest : GoString) (ts : List Tok)
    (h : scanBody rest = some ts) :
    scanBody (stringQuoter b ++ rest) = some (escapeOf b :: ts) := by
  unfold stringQuoter escapeOf
  split_ifs <;> try (simp_all [scanBody])
  all_goals (cases rest <;> simp_all [scanBody])

theorem scanBody_flatMap (s : GoString) :
    scanBody (s.flatMap stringQuoter) = some (s.map escapeOf) := by
  induction s with
  | nil => rfl
  | cons b t ih =>
    simp only [List.flatMap_cons, List.map_cons]
    exact scanBody_stringQuoter b _ _ ih

theorem escapeOf_ne_plain_quote (b : Nat) : escapeOf b ≠ Tok.plain 39 := by
  unfold escapeOf
  split_ifs <;> simp_all

/-- C2: stringQuote(s) is a single quote, a body and a single quote; read left
to right the body is, byte for byte of s, the two-character escape of each
byte of the escape set (\0, \\, \', \", \b, \n, \r, \t, \Z) and the byte itself
otherwise; no unescaped single quote occurs and the body does not end in the
middle of an escape. -/
theorem stringQuote_escapes (s : GoString) :
    ∃ body, stringQuote s = [39] ++ body ++ [39]
      ∧ scanBody body = some (s.map escapeOf)
      ∧ Tok.plain 39 ∉ s.map escapeOf
      ∧ (escapeOf 0 = Tok.esc 48 ∧ escapeOf 92 = Tok.esc 92 ∧ escapeOf 39 = Tok.esc 39
          ∧ escapeOf 34 = Tok.esc 34 ∧ escapeOf 8 = Tok.esc 98 ∧ escapeOf 10 = Tok.esc 110
          ∧ escapeOf 13 = Tok.esc 114 ∧ escapeOf 9 = Tok.esc 116 ∧ escapeOf 26 = Tok.esc 90) := by
  refine ⟨s.flatMap stringQuoter, rfl, scanBody_flatMap s, ?_, by decide⟩
  intro hmem
  obtain ⟨b, _, hb⟩ := List.mem_map.mp hmem
  exact escapeOf_ne_plain_quote b hb

/-! ## DDL script layout -/

theorem parseLoop_ok {α E : Type} (newTable : α → Except E table) :
    ∀ (structs : List α) (ts : List table),
      structs.map newTable = ts.map Except.ok →
      parseLoop newTable structs = (ts.map some, none) := by
  intro structs
  induction structs with
  | nil =>
    intro ts h
    cases ts with
    | nil => rfl
    | cons t r => simp at h
  | cons s rest ih =>
    intro ts h
    cases ts with
    | nil => simp at h
    | cons t r =>
      simp only [List.map_cons, List.cons.injEq] at h
      obtain ⟨h1, h2⟩ := h
      simp only [parseLoop, h1, ih r h2, List.map_cons]

theorem derefTables_map_some (ts : List table) :
    derefTables (ts.map some) = some ts := by
  induction ts with
  | nil => rfl
  | cons t r ih => simp [derefTables, ih]

theorem structs_foldl_AddStructs {α : Type} (adds : List (List α)) (m : Maker α) :
    (adds.foldl AddStructs m).structs = m.structs ++ adds.flatten
      ∧ (adds.foldl AddStructs m).config = m.config := by
  induction adds generalizing m with
  | nil => simp
  | cons a r ih =>
    simp only [List.foldl_cons, List.flatten_cons]
    rw [(ih (AddStructs m a)).1, (ih (AddStructs m a)).2]
    simp [AddStructs]

/-- C3: when every added struct parses and the sink accepts the write, Generate
issues one write whose text is the statement SET foreign_key_checks=0,
then one block per added struct in the order passed to AddStructs (successive
calls concatenated), then the statement SET foreign_key_checks=1 and a
newline; each block is DROP TABLE, CREATE TABLE and ends with a blank line,
which separates it from the next block. -/
theorem generate_layout {α E : Type} (newTable : α → Except E table)
    (w : GoString → Nat × Option E) (config : Option Config)
    (adds : List (List α)) (ts : List table)
    (hparse : adds.flatten.map newTable = ts.map Except.ok)
    (hsink : w (lit "SET foreign_key_checks=0;\n"
        ++ ts.flatMap (generateTable config)
        ++ lit "SET foreign_key_checks=1;\n")
      = ((lit "SET foreign_key_checks=0;\n"
        ++ ts.flatMap (generateTable config)
        ++ lit "SET foreign_key_checks=1;\n").length, none)) :
    Generate newTable w (adds.foldl AddStructs (New config))
      = GenResult.done ⟨config, adds.flatten, ts.map some⟩
          [lit "SET foreign_key_checks=0;\n"
            ++ ts.flatMap (generateTable config)
            ++ lit "SET foreign_key_checks=1;\n"] none
    ∧ ∀ t : table, ∃ body : GoString, generateTable config t
        = lit "DROP TABLE IF EXISTS " ++ quote t.name ++ lit ";\n\n"
          ++ lit "CREATE TABLE " ++ quote t.name ++ lit " (\n"
          ++ body ++ lit ";\n\n" := by
  constructor
  · have hs := structs_foldl_AddStructs adds (New config)
    have hstructs : (adds.foldl AddStructs (New config)).structs = adds.flatten := by
      rw [hs.1]; simp [New]
    have hconfig : (adds.foldl AddStructs (New config)).config = config := by
      rw [hs.2]; simp [New]
    unfold Generate parse
    rw [hstructs, hconfig, parseLoop_ok newTable _ _ hparse]
    simp only [Option.map_none', derefTables_map_some]
    rw [hsink]
    simp
  · intro t
    refine ⟨t.columns.flatMap generateColumn ++ generateIndex t
      ++ lit "    PRIMARY KEY (" ++ join (lit ", ") (quoteAll t.primaryKey.columns)
      ++ lit ")\n" ++ lit ")" ++ tableOptions config, ?_⟩
    simp [generateTable, List.append_assoc]

/-- Witness of `generate_layout`: two AddStructs calls, one table each, an
identity parser and a sink that accepts every write. -/
theorem generate_layout_witness :
    Generate (fun t : table => (Except.ok t : Except Unit table))
        (fun text => (text.length, none))
        ([[⟨lit "foo1", lit "Foo1", [], ⟨[]⟩, [], [], []⟩],
          [⟨lit "foo4", lit "Foo4", [], ⟨[]⟩, [], [], []⟩]].foldl AddStructs (New none))
      = GenResult.done
          ⟨none, [⟨lit "foo1", lit "Foo1", [], ⟨[]⟩, [], [], []⟩,
              ⟨lit "foo4", lit "Foo4", [], ⟨[]⟩, [], [], []⟩],
            [some ⟨lit "foo1", lit "Foo1", [], ⟨[]⟩, [], [], []⟩,
              some ⟨lit "foo4", lit "Foo4", [], ⟨[]⟩, [], [], []⟩]⟩
          [lit "SET foreign_key_checks=0;\n"
            ++ [⟨lit "foo1", lit "Foo1", [], ⟨[]⟩, [], [], []⟩,
                ⟨lit "foo4", lit "Foo4", [], ⟨[]⟩, [], [], []⟩].flatMap (generateTable none)
            ++ lit "SET foreign_key_checks=1;\n"] none :=
  (generate_layout (fun t : table => (Except.ok t : Except Unit table))
    (fun text => (text.length, none)) none
    [[⟨lit "foo1", lit "Foo1", [], ⟨[]⟩, [], [], []⟩],
      [⟨lit "foo4", lit "Foo4", [], ⟨[]⟩, [], [], []⟩]]
    [⟨lit "foo1", lit "Foo1", [], ⟨[]⟩, [], [], []⟩,
      ⟨lit "foo4", lit "Foo4", [], ⟨[]⟩, [], [], []⟩]
    rfl rfl).1

/-! ## Insert: constants and statement text -/

theorem insertFields_columns (cols : List column) :
    (insertFields cols).1
      = (cols.filter (fun c => !c.autoIncr)).map (fun c => quote c.name) := by
  induction cols with
  | nil => rfl
  | cons c rest ih =>
    by_cases h : c.autoIncr = true <;> simp [insertFields, h, ih]

theorem insertFields_placeholders (cols : List column) :
    (insertFields cols).2.1
      = List.replicate (cols.filter (fun c => !c.autoIncr)).length (lit "?") := by
  induction cols with
  | nil => rfl
  | cons c rest ih =>
    by_cases h : c.autoIncr = true <;> simp [insertFields, h, ih, List.replicate_succ]

theorem insertFields_values (cols : List column) :
    (insertFields cols).2.2
      = (cols.filter (fun c => !c.autoIncr)).map (fun c => lit "v." ++ c.rawName) := by
  induction cols with
  | nil => rfl
  | cons c rest ih =>
    by_cases h : c.autoIncr = true <;> simp [insertFields, h, ih]

theorem placeholders_length (t : table) :
    (insertFields t.columns).2.1.length = nonAutoCount t := by
  rw [insertFields_placeholders]
  simp [nonAutoCount, nonAutoColumns]

theorem maxStructCount_eq (t : table) :
    maxStructCount t = batchCap (nonAutoCount t) := by
  unfold maxStructCount batchCap
  rw [placeholders_length]
  split_ifs with h <;> omega

theorem batchCap_pos (F : Nat) (h1 : 1 ≤ F) (h2 : F ≤ 65535) : 1 ≤ batchCap F := by
  unfold batchCap
  have : 1 ≤ 65535 / F := (Nat.one_le_div_iff (by omega)).mpr h2
  omega

theorem batchCap_mul_le (F : Nat) : batchCap F * F ≤ 65535 := by
  unfold batchCap
  have h : 65535 / F * F ≤ 65535 := Nat.div_mul_le_self 65535 F
  have hm : min (65535 / F) 32 ≤ 65535 / F := Nat.min_le_left _ _
  exact le_trans (Nat.mul_le_mul_right F hm) h

/-- Generation panics exactly when there is no placeholder or more than 65535
of them. -/
theorem generateGoTableInsert_eq_none (fmtQ : GoString → GoString) (t : table) :
    generateGoTableInsert fmtQ t = none ↔ nonAutoCount t = 0 ∨ 65535 < nonAutoCount t := by
  unfold generateGoTableInsert
  rw [maxStructCount_eq, placeholders_length]
  by_cases h0 : nonAutoCount t = 0
  · simp [h0]
  · by_cases hbig : 65535 < nonAutoCount t
    · have : batchCap (nonAutoCount t) = 0 := by
        unfold batchCap
        rw [Nat.div_eq_of_lt hbig]
        rfl
      simp [h0, hbig, this]
    · have hpos := batchCap_pos (nonAutoCount t) (by omega) (by omega)
      have : ¬ ((batchCap (nonAutoCount t) : Int) - 1 < 0) := by omega
      simp [h0, hbig, this]

theorem filter_replicate_nonAuto (n : Nat) (c : column) (hc : c.autoIncr = false) :
    ((List.replicate n c).filter (fun c => !c.autoIncr)).length = n := by
  induction n with
  | zero => rfl
  | succ n ih => simp [List.replicate_succ, hc]

theorem nonAutoCount_wideTable : nonAutoCount wideTable = 65536 :=
  filter_replicate_nonAuto 65536 _ rfl

theorem join_replicate_succ (sep x : GoString) (j : Nat) :
    join sep (List.replicate (j + 1) x) = x ++ strRepeat (sep ++ x) j := by
  induction j with
  | zero => simp [List.replicate, join, strRepeat]
  | succ j ih =>
    rw [List.replicate_succ, List.replicate_succ, join, ← List.replicate_succ, ih]
    simp [strRepeat, List.append_assoc]

theorem strRepeat_length (s : GoString) (m : Nat) :
    (strRepeat s m).length = m * s.length := by
  induction m with
  | zero => simp [strRepeat]
  | succ m ih => simp [strRepeat, ih, Nat.succ_mul, Nat.add_comm]

theorem take_strRepeat (s : GoString) (j m : Nat) (h : j ≤ m) :
    (strRepeat s m).take (j * s.length) = strRepeat s j := by
  induction j generalizing m with
  | zero => simp [strRepeat]
  | succ j ih =>
    cases m with
    | zero => omega
    | succ m =>
      have : (j + 1) * s.length = s.length + j * s.length := by
        rw [Nat.succ_mul, Nat.add_comm]
      rw [this]
      simp only [strRepeat]
      rw [List.take_append_eq_append_take]
      simp only [List.take_of_length_le (Nat.le_add_right _ _), Nat.add_sub_cancel_left]
      rw [ih m (by omega)]

theorem strPlaceholders_eq (t : table) :
    strPlaceholders t = lit ", " ++ valueTuple (nonAutoCount t) := by
  unfold strPlaceholders valueTuple
  rw [insertFields_placeholders]
  have : lit ", (" = lit ", " ++ lit "(" := by decide
  rw [this]
  simp [nonAutoCount, nonAutoColumns, List.append_assoc]

theorem insertHead_eq (t : table) :
    insertHead t = insertStatementFor t 1 := by
  unfold insertHead insertStatementFor valueTuple
  rw [insertFields_placeholders, insertFields_columns]
  have h1 : lit ") VALUES " = lit ") VALUES" ++ lit " " := by decide
  have h2 : lit " (" = lit " " ++ lit "(" := by decide
  rw [h1, h2]
  simp [nonAutoCount, nonAutoColumns, join, List.append_assoc]

theorem insertHead_append_repeat (t : table) (j : Nat) :
    insertHead t ++ strRepeat (strPlaceholders t) j = insertStatementFor t (j + 1) := by
  rw [insertHead_eq, strPlaceholders_eq]
  unfold insertStatementFor
  rw [join_replicate_succ _ _ j]
  simp [join, List.append_assoc]

theorem strPlaceholders_le_insertHead (t : table) :
    (strPlaceholders t).length ≤ (insertHead t).length := by
  rw [insertHead_eq, strPlaceholders_eq]
  unfold insertStatementFor
  have h1 : (lit ", ").length = 2 := by decide
  have h2 : (lit "INSERT INTO ").length = 12 := by decide
  simp only [List.length_append, List.replicate_one, join, h1, h2]
  omega

/-- The slice taken for a chunk of k records is the statement for k
records. -/
theorem goSlice_insert (t : table) (k : Nat) (hk1 : 1 ≤ k)
    (hk2 : k ≤ (insertConsts t).maxStructCount) :
    goSlice (insertConsts t).q
        ((k : Int) * ((insertConsts t).scale : Int) + (insertConsts t).offset)
      = some (insertStatementFor t k) := by
  have hle := strPlaceholders_le_insertHead t
  simp only [insertConsts] at hk2 ⊢
  obtain ⟨j, rfl⟩ : ∃ j, k = j + 1 := ⟨k - 1, by omega⟩
  have hb : ((j + 1 : Nat) : Int) * ((strPlaceholders t).length : Int)
      + (((insertHead t).length : Int) - ((strPlaceholders t).length : Int))
      = (((insertHead t).length + j * (strPlaceholders t).length : Nat) : Int) := by
    push_cast
    ring
  rw [hb]
  unfold goSlice
  have hlen : (insertHead t).length + j * (strPlaceholders t).length
      ≤ (insertHead t ++ strRepeat (strPlaceholders t) (maxStructCount t - 1)).length := by
    rw [List.length_append, strRepeat_length]
    have : j * (strPlaceholders t).length
        ≤ (maxStructCount t - 1) * (strPlaceholders t).length :=
      Nat.mul_le_mul_right _ (by omega)
    omega
  rw [if_pos ⟨by omega, by exact_mod_cast hlen⟩]
  simp only [Int.toNat_ofNat]
  rw [List.take_append_eq_append_take]
  simp only [List.take_of_length_le (Nat.le_add_right _ _), Nat.add_sub_cancel_left]
  rw [take_strRepeat _ _ _ (by omega), insertHead_append_repeat]

/-! ## Insert: the generated loop -/

theorem chunksOf_fuel {V : Type} (cap : Nat) (hcap : 1 ≤ cap) :
    ∀ (f1 f2 : Nat) (vs : List V), vs.length ≤ f1 → vs.length ≤ f2 →
      chunksOf cap f1 vs = chunksOf cap f2 vs := by
  intro f1
  induction f1 with
  | zero =>
    intro f2 vs h1 _
    have : vs = [] := List.length_eq_zero.mp (by omega)
    subst this
    cases f2 <;> rfl
  | succ f1 ih =>
    intro f2 vs h1 h2
    cases vs with
    | nil => cases f2 <;> rfl
    | cons v rest =>
      cases f2 with
      | zero => simp at h2
      | succ f2 =>
        simp only [chunksOf]
        congr 1
        apply ih
        · simp only [List.length_drop, List.length_cons] at h1 ⊢
          omega
        · simp only [List.length_drop, List.length_cons] at h2 ⊢
          omega

theorem batches_cons {V : Type} (cap : Nat) (hcap : 1 ≤ cap) (v : V) (rest : List V) :
    batches cap (v :: rest)
      = (v :: rest).take cap :: batches cap ((v :: rest).drop cap) := by
  unfold batches
  simp only [List.length_cons, chunksOf]
  congr 1
  apply chunksOf_fuel cap hcap
  · simp only [List.length_drop, List.length_cons]
    omega
  · exact le_refl _

/-- The loop of the generated Insert issues the calls of the chunks in order
and stops at the first failure. -/
theorem insertRun_eq_issue {V A E : Type} (t : table)
    (h1 : 1 ≤ nonAutoCount t) (h2 : nonAutoCount t ≤ 65535)
    (fields : V → List A) (exec : List (ExecCall A) → ExecCall A → Option E) :
    ∀ (fuel : Nat) (hist : List (ExecCall A)) (values : List V),
      values.length ≤ fuel →
      insertRun (insertConsts t) fields exec fuel hist values
        = Outcome.ret
            (issue exec hist ((batches (batchCap (nonAutoCount t)) values).map
              (callOf t fields))).1
            (issue exec hist ((batches (batchCap (nonAutoCount t)) values).map
              (callOf t fields))).2 := by
  have hcap := batchCap_pos _ h1 h2
  have hmax : (insertConsts t).maxStructCount = batchCap (nonAutoCount t) := by
    simp [insertConsts, maxStructCount_eq]
  intro fuel
  induction fuel with
  | zero =>
    intro hist values hlen
    have : values = [] := List.length_eq_zero.mp (by omega)
    subst this
    simp [insertRun, batches, chunksOf, issue]
  | succ fuel ih =>
    intro hist values hlen
    cases values with
    | nil => simp [insertRun, batches, chunksOf, issue]
    | cons v rest =>
      rw [batches_cons _ hcap]
      simp only [insertRun, List.length_cons, Nat.zero_lt_succ, if_true, List.map_cons, issue]
      rw [hmax]
      set cap := batchCap (nonAutoCount t) with hcapdef
      set i := (if rest.length + 1 > cap then cap else rest.length + 1) with hi
      have hi1 : 1 ≤ i := by rw [hi]; split_ifs <;> omega
      have hi2 : i ≤ cap := by rw [hi]; split_ifs <;> omega
      have htake : (v :: rest).take i = (v :: rest).take cap := by
        rw [hi]
        split_ifs with h
        · rfl
        · rw [List.take_of_length_le (by simp), List.take_of_length_le (by simp; omega)]
      have hdrop : (v :: rest).drop i = (v :: rest).drop cap := by
        rw [hi]
        split_ifs with h
        · rfl
        · rw [List.drop_of_length_le (by simp), List.drop_of_length_le (by simp; omega)]
      have hlen_i : ((v :: rest).take cap).length = i := by
        rw [hi, List.length_take, List.length_cons]
        split_ifs <;> omega
      rw [goSlice_insert t i hi1 (by rw [hmax]; exact hi2)]
      simp only [htake, hdrop]
      have hcall : callOf t fields ((v :: rest).take cap)
          = (insertStatementFor t i, ((v :: rest).take cap).flatMap fields) := by
        simp [callOf, hlen_i]
      rw [hcall]
      cases hex : exec hist (insertStatementFor t i, ((v :: rest).take cap).flatMap fields) with
      | some err => rfl
      | none =>
        simp only []
        apply ih
        simp only [List.length_drop, List.length_cons] at hlen ⊢
        omega

theorem ceil_div_step (n cap : Nat) (hcap : 1 ≤ cap) (hn : 1 ≤ n) :
    (n + cap - 1) / cap = (n - cap + cap - 1) / cap + 1 := by
  by_cases h : n ≤ cap
  · have e1 : n - cap + cap - 1 = cap - 1 := by omega
    have e2 : n + cap - 1 = (n - 1) + cap := by omega
    rw [e1, e2, Nat.add_div_right _ (by omega), Nat.div_eq_of_lt (by omega),
      Nat.div_eq_of_lt (by omega)]
  · have e2 : n + cap - 1 = (n - cap + cap - 1) + cap := by omega
    rw [e2, Nat.add_div_right _ (by omega)]

theorem chunksOf_spec {V : Type} (cap : Nat) (hcap : 1 ≤ cap) :
    ∀ (fuel : Nat) (vs : List V), vs.length ≤ fuel →
      (chunksOf cap fuel vs).flatten = vs
      ∧ (chunksOf cap fuel vs).length = (vs.length + cap - 1) / cap
      ∧ ∀ i, i < (vs.length + cap - 1) / cap →
          (chunksOf cap fuel vs)[i]? = some ((vs.drop (i * cap)).take cap) := by
  intro fuel
  induction fuel with
  | zero =>
    intro vs h
    have : vs = [] := List.length_eq_zero.mp (by omega)
    subst this
    have hz : (cap - 1) / cap = 0 := Nat.div_eq_of_lt (by omega)
    simp [chunksOf, hz]
  | succ fuel ih =>
    intro vs h
    cases vs with
    | nil =>
      have hz : (cap - 1) / cap = 0 := Nat.div_eq_of_lt (by omega)
      simp [chunksOf, hz]
    | cons v rest =>
      have hlen : ((v :: rest).drop cap).length ≤ fuel := by
        simp only [List.length_drop, List.length_cons] at h ⊢
        omega
      obtain ⟨ih1, ih2, ih3⟩ := ih ((v :: rest).drop cap) hlen
      have hstep := ceil_div_step (v :: rest).length cap hcap (by simp)
      have hdl : ((v :: rest).drop cap).length = (v :: rest).length - cap := by
        simp
      simp only [chunksOf]
      refine ⟨?_, ?_, ?_⟩
      · rw [List.flatten_cons, ih1, List.take_append_drop]
      · rw [List.length_cons, ih2, hdl, hstep]
      · intro i hi
        cases i with
        | zero => simp
        | succ i =>
          rw [List.getElem?_cons_succ, ih3 i (by rw [hdl]; omega), List.drop_drop]
          congr 3
          rw [Nat.succ_mul]
          omega

theorem issue_never_fails {A E : Type} (exec : List (ExecCall A) → ExecCall A → Option E)
    (hexec : ∀ hist call, exec hist call = none) :
    ∀ (plan hist : List (ExecCall A)), issue exec hist plan = (hist ++ plan, none) := by
  intro plan
  induction plan with
  | nil => intro hist; simp [issue]
  | cons c cs ih =>
    intro hist
    simp only [issue, hexec hist c, ih (hist ++ [c])]
    simp

theorem issue_first_failure {A E : Type} (exec : List (ExecCall A) → ExecCall A → Option E) :
    ∀ (plan hist : List (ExecCall A)) (j : Nat) (call : ExecCall A) (err : E),
      plan[j]? = some call →
      (∀ i c, i < j → plan[i]? = some c → exec (hist ++ plan.take i) c = none) →
      exec (hist ++ plan.take j) call = some err →
      issue exec hist plan = (hist ++ plan.take (j + 1), some err) := by
  intro plan
  induction plan with
  | nil => intro hist j call err hj; simp at hj
  | cons c cs ih =>
    intro hist j call err hj hbefore hfail
    cases j with
    | zero =>
      simp only [List.getElem?_cons_zero, Option.some.injEq] at hj
      subst hj
      simp only [List.take_zero, List.append_nil] at hfail
      simp [issue, hfail]
    | succ j =>
      have h0 := hbefore 0 c (by omega) (by simp)
      simp only [List.take_zero, List.append_nil] at h0
      simp only [issue, h0]
      rw [ih (hist ++ [c]) j call err (by simpa using hj)
        (fun i c2 hi hc => by
          have := hbefore (i + 1) c2 (by omega) (by simpa using hc)
          simpa [List.append_assoc] using this)
        (by simpa [List.append_assoc] using hfail)]
      simp [List.append_assoc]

theorem issue_no_failure {A E : Type} (exec : List (ExecCall A) → ExecCall A → Option E) :
    ∀ (plan hist : List (ExecCall A)),
      (∀ i c, plan[i]? = some c → exec (hist ++ plan.take i) c = none) →
      issue exec hist plan = (hist ++ plan, none) := by
  intro plan
  induction plan with
  | nil => intro hist _; simp [issue]
  | cons c cs ih =>
    intro hist h
    have h0 := h 0 c (by simp)
    simp only [List.take_zero, List.append_nil] at h0
    simp only [issue, h0]
    rw [ih (hist ++ [c]) (fun i c2 hc => by
      have := h (i + 1) c2 (by simpa using hc)
      simpa [List.append_assoc] using this)]
    simp [List.append_assoc]

theorem strRepeat_count (s : GoString) (m b : Nat) :
    (strRepeat s m).count b = m * s.count b := by
  induction m with
  | zero => simp [strRepeat]
  | succ m ih => simp [strRepeat, ih, Nat.succ_mul, Nat.add_comm]

theorem join_replicate_count (sep x : GoString) (k b : Nat) (hsep : sep.count b = 0) :
    (join sep (List.replicate k x)).count b = k * x.count b := by
  cases k with
  | zero => simp [join]
  | succ j =>
    rw [join_replicate_succ, List.count_append, strRepeat_count, List.count_append, hsep,
      Nat.zero_add, Nat.succ_mul]
    omega

/-- The value tuples of the statement for k records hold k * F placeholders. -/
theorem placeholders_count (k F : Nat) :
    (join (lit ", ") (List.replicate k (valueTuple F))).count 63 = k * F := by
  have hsep : (lit ", ").count 63 = 0 := by decide
  have hq : (lit "?").count 63 = 1 := by decide
  have hl : (lit "(").count 63 = 0 := by decide
  have hr : (lit ")").count 63 = 0 := by decide
  rw [join_replicate_count _ _ _ _ hsep]
  unfold valueTuple
  rw [List.count_append, List.count_append, join_replicate_count _ _ _ _ hsep, hq, hl, hr]
  simp

theorem insertConsts_q (t : table) (h1 : 1 ≤ nonAutoCount t) (h2 : nonAutoCount t ≤ 65535) :
    (insertConsts t).q = insertStatementFor t (batchCap (nonAutoCount t)) := by
  have hcap := batchCap_pos _ h1 h2
  simp only [insertConsts]
  rw [insertHead_append_repeat, maxStructCount_eq]
  congr 1
  omega

theorem chunksOf_lengths {V : Type} (cap : Nat) (hcap : 1 ≤ cap) :
    ∀ (fuel : Nat) (vs : List V), ∀ chunk ∈ chunksOf cap fuel vs,
      1 ≤ chunk.length ∧ chunk.length ≤ cap := by
  intro fuel
  induction fuel with
  | zero => intro vs chunk h; simp [chunksOf] at h
  | succ fuel ih =>
    intro vs chunk h
    cases vs with
    | nil => simp [chunksOf] at h
    | cons v rest =>
      simp only [chunksOf, List.mem_cons] at h
      rcases h with h | h
      · subst h
        simp only [List.length_take, List.length_cons]
        omega
      · exact ih _ chunk h

theorem issue_mem {A E : Type} (exec : List (ExecCall A) → ExecCall A → Option E) :
    ∀ (plan hist : List (ExecCall A)), ∀ call ∈ (issue exec hist plan).1,
      call ∈ hist ∨ call ∈ plan := by
  intro plan
  induction plan with
  | nil => intro hist call h; exact Or.inl (by simpa [issue] using h)
  | cons c cs ih =>
    intro hist call h
    simp only [issue] at h
    cases hex : exec hist c with
    | some err =>
      rw [hex] at h
      simp only [List.mem_append, List.mem_singleton] at h
      rcases h with h | h
      · exact Or.inl h
      · exact Or.inr (by simp [h])
    | none =>
      rw [hex] at h
      rcases ih (hist ++ [c]) call h with h | h
      · simp only [List.mem_append, List.mem_singleton] at h
        rcases h with h | h
        · exact Or.inl h
        · exact Or.inr (by simp [h])
      · exact Or.inr (by simp [h])

theorem batches_of_length_le {V : Type} (cap : Nat) (vs : List V)
    (h1 : 1 ≤ vs.length) (h2 : vs.length ≤ cap) : batches cap vs = [vs] := by
  cases vs with
  | nil => simp at h1
  | cons v rest =>
    rw [batches_cons cap (by omega), List.take_of_length_le h2, List.drop_of_length_le h2]
    rfl

/-! ## Insert: the claims -/

/-- C4, as stated, fails: a table with 65536 non-auto-increment columns has
F >= 1, but maxStructCount is 0 and strings.Repeat is called with the count
-1, so generateGoTableInsert panics and no Insert function is generated. -/
theorem insert_wide_table_not_generated :
    1 ≤ nonAutoCount wideTable
      ∧ maxStructCount wideTable = 0
      ∧ generateGoTableInsert (fun s => s) wideTable = none := by
  refine ⟨?_, ?_, ?_⟩
  · rw [nonAutoCount_wideTable]
    omega
  · rw [maxStructCount_eq, nonAutoCount_wideTable]
    decide
  · rw [generateGoTableInsert_eq_none, nonAutoCount_wideTable]
    omega

/-- C4, amended: for every table with 1 <= F <= 65535 non-auto-increment
columns, generateGoTableInsert emits an Insert function that, after its
header and the constant q, declares fieldCount = F and
maxStructCount = min(floor(65535 / F), 32), followed by the loop. -/
theorem insert_declares_constants (fmtQ : GoString → GoString) (t : table)
    (h1 : 1 ≤ nonAutoCount t) (h2 : nonAutoCount t ≤ 65535) :
    generateGoTableInsert fmtQ t
        = some (lit "func Insert" ++ t.rawName
          ++ lit "(ctx context.Context, execer execer, values ...*" ++ t.rawName
          ++ lit ") error \x7b"
          ++ lit "const q = " ++ fmtQ (insertHead t) ++ lit "+\n"
          ++ fmtQ (strRepeat (strPlaceholders t) (batchCap (nonAutoCount t) - 1)) ++ lit "\n"
          ++ lit "const fieldCount = " ++ itoa (nonAutoCount t) ++ lit "\n"
          ++ lit "const maxStructCount = " ++ itoa (batchCap (nonAutoCount t)) ++ lit "\n"
          ++ insertLoopText t)
      ∧ (insertConsts t).fieldCount = nonAutoCount t
      ∧ (insertConsts t).maxStructCount = batchCap (nonAutoCount t) := by
  have hcap := batchCap_pos _ h1 h2
  have hfc : (insertConsts t).fieldCount = nonAutoCount t := by
    simp [insertConsts, placeholders_length]
  have hmc : (insertConsts t).maxStructCount = batchCap (nonAutoCount t) := by
    simp [insertConsts, maxStructCount_eq]
  refine ⟨?_, hfc, hmc⟩
  unfold generateGoTableInsert
  rw [hfc, hmc, placeholders_length, maxStructCount_eq]
  rw [if_neg (by omega), if_neg (by omega)]

/-- Witness of `insert_declares_constants` at the table foo8 (F = 1). -/
theorem insert_declares_constants_witness :
    (insertConsts foo8).fieldCount = nonAutoCount foo8
      ∧ (insertConsts foo8).maxStructCount = batchCap (nonAutoCount foo8) :=
  (insert_declares_constants (fun s => s) foo8 (by decide) (by decide)).2

/-- C5: for every table with 1 <= F <= 65535, batchCap >= 1 and
batchCap * F <= 65535; with enough fuel the generated Insert returns, and every
statement it issued is the statement for some k records with
1 <= k <= batchCap, which holds k * F <= 65535 placeholders. -/
theorem insert_within_placeholder_limit (t : table)
    (h1 : 1 ≤ nonAutoCount t) (h2 : nonAutoCount t ≤ 65535) :
    1 ≤ batchCap (nonAutoCount t)
      ∧ batchCap (nonAutoCount t) * nonAutoCount t ≤ 65535
      ∧ (insertConsts t).maxStructCount = batchCap (nonAutoCount t)
      ∧ ∀ (V A E : Type) (fields : V → List A)
          (exec : List (ExecCall A) → ExecCall A → Option E)
          (fuel : Nat) (values : List V), values.length ≤ fuel →
          ∃ calls err, Insert (insertConsts t) fields exec fuel values = Outcome.ret calls err
            ∧ ∀ call ∈ calls, ∃ k, 1 ≤ k ∧ k ≤ batchCap (nonAutoCount t)
                ∧ call.1 = insertStatementFor t k
                ∧ (join (lit ", ") (List.replicate k (valueTuple (nonAutoCount t)))).count 63
                    = k * nonAutoCount t
                ∧ k * nonAutoCount t ≤ 65535 := by
  have hcap := batchCap_pos _ h1 h2
  have hmul := batchCap_mul_le (nonAutoCount t)
  refine ⟨hcap, hmul, by simp [insertConsts, maxStructCount_eq], ?_⟩
  intro V A E fields exec fuel values hfuel
  refine ⟨_, _, insertRun_eq_issue t h1 h2 fields exec fuel [] values hfuel, ?_⟩
  intro call hcall
  rcases issue_mem exec _ _ call hcall with h | h
  · simp at h
  · obtain ⟨chunk, hchunk, rfl⟩ := List.mem_map.mp h
    have hl := chunksOf_lengths _ hcap _ _ chunk hchunk
    refine ⟨chunk.length, hl.1, hl.2, rfl, placeholders_count _ _, ?_⟩
    exact le_trans (Nat.mul_le_mul_right _ hl.2) hmul

/-- Witness of `insert_within_placeholder_limit` at the table foo8. -/
theorem insert_within_placeholder_limit_witness :
    1 ≤ batchCap (nonAutoCount foo8)
      ∧ batchCap (nonAutoCount foo8) * nonAutoCount foo8 ≤ 65535 :=
  ⟨(insert_within_placeholder_limit foo8 (by decide) (by decide)).1,
    (insert_within_placeholder_limit foo8 (by decide) (by decide)).2.1⟩

/-- C6: for every table with 1 <= F <= 65535 the constant q is INSERT INTO,
the quoted table name, the quoted names of the non-auto-increment columns in
declaration order joined by a comma and a space, VALUES and one value tuple of
F placeholders, followed by batchCap - 1 further copies of a comma, a space
and the tuple; that is batchCap tuples, holding batchCap * F placeholders. -/
theorem insert_statement_text (t : table)
    (h1 : 1 ≤ nonAutoCount t) (h2 : nonAutoCount t ≤ 65535) :
    (insertConsts t).q
        = lit "INSERT INTO " ++ quote t.name ++ lit " ("
          ++ join (lit ", ") ((t.columns.filter (fun c => !c.autoIncr)).map (fun c => quote c.name))
          ++ lit ") VALUES "
          ++ valueTuple (nonAutoCount t)
          ++ strRepeat (lit ", " ++ valueTuple (nonAutoCount t)) (batchCap (nonAutoCount t) - 1)
      ∧ (insertConsts t).q
        = lit "INSERT INTO " ++ quote t.name ++ lit " ("
          ++ join (lit ", ") ((t.columns.filter (fun c => !c.autoIncr)).map (fun c => quote c.name))
          ++ lit ") VALUES "
          ++ join (lit ", ")
              (List.replicate (batchCap (nonAutoCount t)) (valueTuple (nonAutoCount t)))
      ∧ (join (lit ", ")
            (List.replicate (batchCap (nonAutoCount t)) (valueTuple (nonAutoCount t)))).count 63
          = batchCap (nonAutoCount t) * nonAutoCount t
      ∧ nonAutoCount t = (t.columns.filter (fun c => !c.autoIncr)).length := by
  have hcap := batchCap_pos _ h1 h2
  have hq := insertConsts_q t h1 h2
  refine ⟨?_, ?_, placeholders_count _ _, rfl⟩
  · rw [hq]
    unfold insertStatementFor
    obtain ⟨j, hj⟩ : ∃ j, batchCap (nonAutoCount t) = j + 1 :=
      ⟨batchCap (nonAutoCount t) - 1, by omega⟩
    rw [hj, join_replicate_succ]
    simp [nonAutoColumns, List.append_assoc]
  · rw [hq]
    rfl

/-- Witness of `insert_statement_text` at the table foo8: 32 tuples of one
placeholder. -/
theorem insert_statement_text_witness :
    (join (lit ", ")
        (List.replicate (batchCap (nonAutoCount foo8)) (valueTuple (nonAutoCount foo8)))).count 63
      = batchCap (nonAutoCount foo8) * nonAutoCount foo8 :=
  (insert_statement_text foo8 (by decide) (by decide)).2.2.1

/-- C7: for every table with 1 <= F <= 65535 and every k with
1 <= k <= batchCap, the slice q[:k*len(strPlaceholders) + (len(insert) -
len(strPlaceholders))] does not panic and is the statement built independently
for k records; for k = batchCap it is the whole of q. -/
theorem insert_slice_is_statement (t : table)
    (h1 : 1 ≤ nonAutoCount t) (h2 : nonAutoCount t ≤ 65535)
    (k : Nat) (hk1 : 1 ≤ k) (hk2 : k ≤ batchCap (nonAutoCount t)) :
    goSlice (insertConsts t).q
        ((k : Int) * ((strPlaceholders t).length : Int)
          + (((insertHead t).length : Int) - ((strPlaceholders t).length : Int)))
      = some (insertStatementFor t k)
    ∧ (insertConsts t).scale = (strPlaceholders t).length
    ∧ (insertConsts t).offset
        = ((insertHead t).length : Int) - ((strPlaceholders t).length : Int)
    ∧ (k = batchCap (nonAutoCount t) → insertStatementFor t k = (insertConsts t).q) := by
  refine ⟨?_, rfl, rfl, ?_⟩
  · exact goSlice_insert t k hk1 (by simpa [insertConsts, maxStructCount_eq] using hk2)
  · intro hk
    rw [hk, insertConsts_q t h1 h2]

/-- Witness of `insert_slice_is_statement` at the table foo8 and k = 3. -/
theorem insert_slice_is_statement_witness :
    goSlice (insertConsts foo8).q
        ((3 : Nat) * ((strPlaceholders foo8).length : Int)
          + (((insertHead foo8).length : Int) - ((strPlaceholders foo8).length : Int)))
      = some (insertStatementFor foo8 3) :=
  (insert_slice_is_statement foo8 (by decide) (by decide) 3 (by decide) (by decide)).1

/-- The loop of the template, read with `args` declared: with an executor that
never fails and enough fuel it returns nil after exactly ceil(n / batchCap)
executions, one per chunk in input order; chunk i holds the records from
position i * batchCap on, at most batchCap of them, so every chunk but the last
holds batchCap records and the last holds the remainder; the chunks
concatenated are the input.  This is a property of the loop as spelled out,
not of the emitted text, which does not build. -/
theorem insert_batch_boundary {V A E : Type} (t : table)
    (h1 : 1 ≤ nonAutoCount t) (h2 : nonAutoCount t ≤ 65535)
    (fields : V → List A) (exec : List (ExecCall A) → ExecCall A → Option E)
    (hexec : ∀ hist call, exec hist call = none)
    (values : List V) (fuel : Nat) (hfuel : values.length ≤ fuel) :
    Insert (insertConsts t) fields exec fuel values
        = Outcome.ret ((batches (batchCap (nonAutoCount t)) values).map (callOf t fields)) none
      ∧ (batches (batchCap (nonAutoCount t)) values).length
          = (values.length + batchCap (nonAutoCount t) - 1) / batchCap (nonAutoCount t)
      ∧ (batches (batchCap (nonAutoCount t)) values).flatten = values
      ∧ (∀ i, i < (batches (batchCap (nonAutoCount t)) values).length →
          (batches (batchCap (nonAutoCount t)) values)[i]?
            = some ((values.drop (i * batchCap (nonAutoCount t))).take
                (batchCap (nonAutoCount t))))
      ∧ (∀ i chunk, i + 1 < (batches (batchCap (nonAutoCount t)) values).length →
          (batches (batchCap (nonAutoCount t)) values)[i]? = some chunk →
          chunk.length = batchCap (nonAutoCount t))
      ∧ (∀ chunk, (batches (batchCap (nonAutoCount t)) values).getLast? = some chunk →
          1 ≤ chunk.length
          ∧ chunk.length = values.length
              - ((batches (batchCap (nonAutoCount t)) values).length - 1)
                * batchCap (nonAutoCount t))
      ∧ (values.length = batchCap (nonAutoCount t) + 1 →
          (batches (batchCap (nonAutoCount t)) values).map List.length
            = [batchCap (nonAutoCount t), 1])
      ∧ (values.length = batchCap (nonAutoCount t) →
          (batches (batchCap (nonAutoCount t)) values).map List.length
            = [batchCap (nonAutoCount t)])
      ∧ (values.length = 0 → batches (batchCap (nonAutoCount t)) values = []) := by
  have hcap := batchCap_pos _ h1 h2
  set cap := batchCap (nonAutoCount t) with hcapdef
  obtain ⟨hflat, hlen, hget⟩ := chunksOf_spec cap hcap values.length values (le_refl _)
  have hget2 : ∀ i, i < (batches cap values).length →
      (batches cap values)[i]? = some ((values.drop (i * cap)).take cap) := by
    intro i hi
    exact hget i (by rw [← hlen]; exact hi)
  have hmul : ∀ i, i < (batches cap values).length → i * cap < values.length := by
    intro i hi
    have hi2 : i + 1 ≤ (values.length + cap - 1) / cap := by
      have : (batches cap values).length = (values.length + cap - 1) / cap := hlen
      omega
    have := (Nat.le_div_iff_mul_le (by omega)).mp hi2
    rw [Nat.succ_mul] at this
    omega
  refine ⟨?_, hlen, hflat, hget2, ?_, ?_, ?_, ?_, ?_⟩
  · unfold Insert
    rw [insertRun_eq_issue t h1 h2 fields exec fuel [] values hfuel,
      issue_never_fails exec hexec]
    simp
  · intro i chunk hi hc
    rw [hget2 i (by omega)] at hc
    simp only [Option.some.injEq] at hc
    subst hc
    have hnext := hmul (i + 1) hi
    rw [Nat.succ_mul] at hnext
    simp only [List.length_take, List.length_drop]
    omega
  · intro chunk hc
    rw [List.getLast?_eq_getElem?] at hc
    have hpos : 0 < (batches cap values).length := by
      by_contra hz
      have : batches cap values = [] := List.length_eq_zero.mp (by omega)
      rw [this] at hc
      simp at hc
    rw [hget2 _ (by omega)] at hc
    simp only [Option.some.injEq] at hc
    subst hc
    have hlast := hmul ((batches cap values).length - 1) (by omega)
    have hcount : (batches cap values).length = (values.length + cap - 1) / cap := hlen
    have hup : (values.length + cap - 1) / cap * cap ≤ values.length + cap - 1 :=
      Nat.div_mul_le_self _ _
    rw [← hcount] at hup
    have hlow : values.length + cap - 1 < cap * ((values.length + cap - 1) / cap + 1) :=
      Nat.lt_mul_div_succ _ (by omega)
    rw [← hcount] at hlow
    have hsplit : (batches cap values).length * cap
        = ((batches cap values).length - 1) * cap + cap := by
      conv_lhs => rw [show (batches cap values).length
        = ((batches cap values).length - 1) + 1 by omega]
      rw [Nat.succ_mul]
    rw [Nat.mul_succ, Nat.mul_comm cap, hsplit] at hlow
    rw [hsplit] at hup
    simp only [List.length_take, List.length_drop]
    generalize ((batches cap values).length - 1) * cap = X at *
    omega
  · intro hn
    cases hv : values with
    | nil => rw [hv] at hn; simp at hn
    | cons v rest =>
      rw [batches_cons cap hcap, ← hv]
      rw [batches_of_length_le cap (values.drop cap) (by simp; omega) (by simp; omega)]
      simp
      omega
  · intro hn
    rw [batches_of_length_le cap values (by omega) (by omega)]
    simp [hn]
  · intro hn
    have : values = [] := List.length_eq_zero.mp hn
    subst this
    rfl

/-- The lemma `insert_batch_boundary` at three records for the table foo8. -/
theorem insert_batch_boundary_witness :
    Insert (insertConsts foo8) (fun v : Nat => [v])
        (fun _ _ => (none : Option Unit)) 3 [10, 20, 30]
      = Outcome.ret ((batches (batchCap (nonAutoCount foo8)) [10, 20, 30]).map
          (callOf foo8 (fun v : Nat => [v]))) none :=
  (insert_batch_boundary foo8 (by decide) (by decide) (fun v : Nat => [v])
    (fun _ _ => (none : Option Unit)) (fun _ _ => rfl) [10, 20, 30] 3 (by decide)).1

/-- The loop of the template, read with `args` declared: with enough fuel, if
the executor fails on chunk j (counted from 0) after accepting the chunks
before it, the loop returns that same error after exactly the calls of chunks
0 to j; if no execution fails it returns nil after the calls of all chunks.
This is a property of the loop as spelled out, not of the emitted text, which
does not build. -/
theorem insert_aborts_on_first_failure {V A E : Type} (t : table)
    (h1 : 1 ≤ nonAutoCount t) (h2 : nonAutoCount t ≤ 65535)
    (fields : V → List A) (exec : List (ExecCall A) → ExecCall A → Option E)
    (values : List V) (fuel : Nat) (hfuel : values.length ≤ fuel) :
    (∀ (j : Nat) (call : ExecCall A) (err : E),
        ((batches (batchCap (nonAutoCount t)) values).map (callOf t fields))[j]? = some call →
        (∀ i c, i < j →
          ((batches (batchCap (nonAutoCount t)) values).map (callOf t fields))[i]? = some c →
          exec (((batches (batchCap (nonAutoCount t)) values).map (callOf t fields)).take i) c
            = none) →
        exec (((batches (batchCap (nonAutoCount t)) values).map (callOf t fields)).take j) call
          = some err →
        Insert (insertConsts t) fields exec fuel values
          = Outcome.ret
              (((batches (batchCap (nonAutoCount t)) values).map (callOf t fields)).take (j + 1))
              (some err))
      ∧ ((∀ i c,
          ((batches (batchCap (nonAutoCount t)) values).map (callOf t fields))[i]? = some c →
          exec (((batches (batchCap (nonAutoCount t)) values).map (callOf t fields)).take i) c
            = none) →
        Insert (insertConsts t) fields exec fuel values
          = Outcome.ret ((batches (batchCap (nonAutoCount t)) values).map (callOf t fields))
              none) := by
  constructor
  · intro j call err hj hbefore hfail
    unfold Insert
    rw [insertRun_eq_issue t h1 h2 fields exec fuel [] values hfuel,
      issue_first_failure exec _ [] j call err hj
        (fun i c hi hc => by simpa using hbefore i c hi hc) (by simpa using hfail)]
    simp
  · intro hall
    unfold Insert
    rw [insertRun_eq_issue t h1 h2 fields exec fuel [] values hfuel,
      issue_no_failure exec _ [] (fun i c hc => by simpa using hall i c hc)]
    simp

/-- The lemma `insert_aborts_on_first_failure` at an executor that fails every
call; the first chunk is attempted and its error returned. -/
theorem insert_aborts_on_first_failure_witness :
    Insert (insertConsts foo8) (fun v : Nat => [v])
        (fun _ _ => some ()) 3 [10, 20, 30]
      = Outcome.ret
          (((batches (batchCap (nonAutoCount foo8)) [10, 20, 30]).map
            (callOf foo8 (fun v : Nat => [v]))).take (0 + 1))
          (some ()) :=
  (insert_aborts_on_first_failure foo8 (by decide) (by decide) (fun v : Nat => [v])
    (fun _ _ => some ()) [10, 20, 30] 3 (by decide)).1 0
    (callOf foo8 (fun v : Nat => [v]) [10, 20, 30]) () rfl
    (fun i _ hi _ => absurd hi (Nat.not_lt_zero i)) rfl

/-! ## Update -/

theorem updateFields_setFields_nil (keys : List GoString) (cols : List column) :
    (updateFields keys cols).setFields = [] ↔ ∀ c ∈ cols, c.name ∈ keys := by
  induction cols with
  | nil => simp [updateFields]
  | cons c rest ih =>
    by_cases h : keys.any (fun key => key == c.name) = true
    · have hmem : c.name ∈ keys := by
        obtain ⟨k, hk, hkc⟩ := List.any_eq_true.mp h
        have : k = c.name := by simpa using hkc
        rw [← this]
        exact hk
      simp only [updateFields, h, if_true, ih, List.mem_cons, forall_eq_or_imp, hmem, true_and]
    · have hmem : c.name ∉ keys := by
        intro hin
        exact h (List.any_eq_true.mpr ⟨c.name, hin, by simp⟩)
      simp only [updateFields, h]
      simp [hmem]

/-- C10: the body of the generated Update is the single statement
return nil, with no call of ExecContext, if and only if every column of the
table is named in the primary key; otherwise the body is exactly one
ExecContext call followed by return err. -/
theorem update_noop_iff (fmtQ : GoString → GoString) (t : table) :
    (updateBody fmtQ t = lit "return nil\n"
        ↔ ∀ c ∈ t.columns, c.name ∈ t.primaryKey.columns)
      ∧ ((¬ ∀ c ∈ t.columns, c.name ∈ t.primaryKey.columns) →
          updateBody fmtQ t
            = lit "_, err := execer.ExecContext(ctx, " ++ fmtQ (updateStatement t) ++ lit ", "
              ++ join (lit ", ") (updateFields t.primaryKey.columns t.columns).goFields
              ++ lit ", "
              ++ join (lit ", ") (updateFields t.primaryKey.columns t.columns).params
              ++ lit ")\n"
              ++ lit "return err\n")
      ∧ generateGoTableUpdate fmtQ t
          = lit "func Update" ++ t.rawName
            ++ lit "(ctx context.Context, execer execer, value *" ++ t.rawName
            ++ lit ") error \x7b\n"
            ++ updateBody fmtQ t
            ++ lit "\x7d\n\n" := by
  have hnil := updateFields_setFields_nil t.primaryKey.columns t.columns
  have hlen : (updateFields t.primaryKey.columns t.columns).setFields.length ≠ 0
      ↔ ¬ ∀ c ∈ t.columns, c.name ∈ t.primaryKey.columns := by
    rw [← hnil, Ne, List.length_eq_zero]
  refine ⟨?_, ?_, rfl⟩
  · constructor
    · intro hbody
      by_contra hall
      have hne := hlen.mpr hall
      unfold updateBody at hbody
      rw [if_pos hne] at hbody
      have e1 : lit "_, err := execer.ExecContext(ctx, "
          = 95 :: lit ", err := execer.ExecContext(ctx, " := by decide
      have e2 : lit "return nil\n" = 114 :: lit "eturn nil\n" := by decide
      rw [e1, e2] at hbody
      simp at hbody
    · intro hall
      unfold updateBody
      rw [if_neg (fun hne => hlen.mp hne hall)]
  · intro hall
    unfold updateBody
    rw [if_pos (hlen.mpr hall)]


/-! ## Update and Select: statement text -/

theorem any_key_eq (keys : List GoString) (name : GoString) :
    keys.any (fun key => key == name) = decide (name ∈ keys) := by
  induction keys with
  | nil => simp
  | cons k rest ih =>
    simp only [List.any_cons, ih, List.mem_cons]
    by_cases h : k = name
    · simp [h]
    · have h2 : ¬ name = k := fun e => h e.symm
      simp [h, h2]

theorem updateFields_eq (keys : List GoString) (cols : List column) :
    (updateFields keys cols).setFields
        = (cols.filter (fun c => !decide (c.name ∈ keys))).map columnTerm
      ∧ (updateFields keys cols).conditions
        = (cols.filter (fun c => decide (c.name ∈ keys))).map columnTerm
      ∧ (updateFields keys cols).goFields
        = (cols.filter (fun c => !decide (c.name ∈ keys))).map
            (fun c => lit "value." ++ c.rawName)
      ∧ (updateFields keys cols).params
        = (cols.filter (fun c => decide (c.name ∈ keys))).map
            (fun c => lit "value." ++ c.rawName) := by
  induction cols with
  | nil => simp [updateFields]
  | cons c rest ih =>
    obtain ⟨i1, i2, i3, i4⟩ := ih
    by_cases h : c.name ∈ keys
    · simp [updateFields, any_key_eq, h, i1, i2, i3, i4, columnTerm]
    · simp [updateFields, any_key_eq, h, i1, i2, i3, i4, columnTerm]

theorem selectKeys_nodup (c : column) (keys : List GoString) (hk : keys.Nodup) :
    selectKeys c keys
      = if c.name ∈ keys then ([lit "primaryKeys." ++ c.rawName], [columnTerm c])
        else ([], []) := by
  induction keys with
  | nil => simp [selectKeys]
  | cons k rest ih =>
    have hnd := List.nodup_cons.mp hk
    by_cases h : k = c.name
    · subst h
      have hrest := ih hnd.2
      rw [if_neg hnd.1] at hrest
      simp [selectKeys, hrest, columnTerm]
    · have h2 : ¬ c.name = k := fun e => h e.symm
      simp only [selectKeys, beq_iff_eq, h, if_false, ih hnd.2, List.mem_cons, h2, false_or]

theorem selectFields_eq (keys : List GoString) (hk : keys.Nodup) (cols : List column) :
    (selectFields keys cols).fields = cols.map (fun c => quote c.name)
      ∧ (selectFields keys cols).goFields = cols.map (fun c => lit "&v." ++ c.rawName)
      ∧ (selectFields keys cols).conditions
        = (cols.filter (fun c => decide (c.name ∈ keys))).map columnTerm
      ∧ (selectFields keys cols).params
        = (cols.filter (fun c => decide (c.name ∈ keys))).map
            (fun c => lit "primaryKeys." ++ c.rawName) := by
  induction cols with
  | nil => simp [selectFields]
  | cons c rest ih =>
    obtain ⟨i1, i2, i3, i4⟩ := ih
    by_cases h : c.name ∈ keys
    · simp [selectFields, i1, i2, i3, i4, selectKeys_nodup c keys hk, h]
    · simp [selectFields, i1, i2, i3, i4, selectKeys_nodup c keys hk, h]

/-- When the column names are distinct and the key names are distinct and all
name columns, the columns named by the key carry exactly the key names. -/
theorem keyColumns_perm (keys : List GoString) (cols : List column)
    (hcols : (cols.map (fun c => c.name)).Nodup) (hk : keys.Nodup)
    (hsub : ∀ k ∈ keys, k ∈ cols.map (fun c => c.name)) :
    ((cols.filter (fun c => decide (c.name ∈ keys))).map (fun c => c.name)).Perm keys := by
  have hnd : ((cols.filter (fun c => decide (c.name ∈ keys))).map (fun c => c.name)).Nodup := by
    have hsl : ((cols.filter (fun c => decide (c.name ∈ keys))).map (fun c => c.name)).Sublist
        (cols.map (fun c => c.name)) := List.Sublist.map _ (List.filter_sublist _)
    exact hcols.sublist hsl
  rw [List.perm_ext_iff_of_nodup hnd hk]
  intro a
  constructor
  · intro ha
    obtain ⟨c, hc, rfl⟩ := List.mem_map.mp ha
    simpa using (List.mem_filter.mp hc).2
  · intro ha
    obtain ⟨c, hc, hca⟩ := List.mem_map.mp (hsub a ha)
    exact List.mem_map.mpr ⟨c, List.mem_filter.mpr ⟨hc, by simpa [hca] using ha⟩, hca⟩

/-- C11: for every table with at least one column that the primary key does
not name, the generated Update executes the statement UPDATE, the quoted table
name, SET and one term per column not named in the primary key, in declaration
order joined by a comma and a space, then WHERE and one term per column named
in the primary key joined by AND (the primary-key names that are columns of
the table); every column of the table is in exactly one of the two clauses, and
the two clauses together hold every column exactly once. -/
theorem update_statement_text (fmtQ : GoString → GoString) (t : table)
    (h : ∃ c ∈ t.columns, c.name ∉ t.primaryKey.columns) :
    updateStatement t
        = lit "UPDATE " ++ quote t.name ++ lit " SET "
          ++ join (lit ", ")
              ((t.columns.filter (fun c => !decide (c.name ∈ t.primaryKey.columns))).map
                (fun c => quote c.name ++ lit " = ?"))
          ++ lit " WHERE "
          ++ join (lit " AND ")
              ((t.columns.filter (fun c => decide (c.name ∈ t.primaryKey.columns))).map
                (fun c => quote c.name ++ lit " = ?"))
      ∧ updateBody fmtQ t
        = lit "_, err := execer.ExecContext(ctx, " ++ fmtQ (updateStatement t) ++ lit ", "
          ++ join (lit ", ") (updateFields t.primaryKey.columns t.columns).goFields
          ++ lit ", "
          ++ join (lit ", ") (updateFields t.primaryKey.columns t.columns).params
          ++ lit ")\n"
          ++ lit "return err\n"
      ∧ (∀ c ∈ t.columns,
          (c ∈ nonKeyColumns t ∧ c ∉ keyColumns t ∧ c.name ∉ t.primaryKey.columns)
          ∨ (c ∈ keyColumns t ∧ c ∉ nonKeyColumns t ∧ c.name ∈ t.primaryKey.columns))
      ∧ (nonKeyColumns t ++ keyColumns t).Perm t.columns
      ∧ (nonKeyColumns t).Sublist t.columns
      ∧ (keyColumns t).Sublist t.columns
      ∧ (∀ k, k ∈ (keyColumns t).map (fun c => c.name)
          ↔ k ∈ t.primaryKey.columns ∧ k ∈ t.columns.map (fun c => c.name)) := by
  obtain ⟨e1, e2, _, _⟩ := updateFields_eq t.primaryKey.columns t.columns
  refine ⟨?_, ?_, ?_, ?_, List.filter_sublist _, List.filter_sublist _, ?_⟩
  · unfold updateStatement
    rw [e1, e2]
    rfl
  · have hne : (updateFields t.primaryKey.columns t.columns).setFields.length ≠ 0 := by
      rw [e1]
      obtain ⟨c, hc, hn⟩ := h
      have hmem : c ∈ t.columns.filter (fun c => !decide (c.name ∈ t.primaryKey.columns)) :=
        List.mem_filter.mpr ⟨hc, by simpa using hn⟩
      intro hz
      rw [List.length_map] at hz
      rw [List.length_eq_zero.mp hz] at hmem
      simp at hmem
    unfold updateBody
    rw [if_pos hne]
  · intro c hc
    by_cases hk : c.name ∈ t.primaryKey.columns
    · right
      simp [keyColumns, nonKeyColumns, hc, hk]
    · left
      simp [keyColumns, nonKeyColumns, hc, hk]
  · unfold nonKeyColumns keyColumns
    have hp := List.filter_append_perm (fun c : column => decide (c.name ∈ t.primaryKey.columns))
      t.columns
    exact List.Perm.trans List.perm_append_comm hp
  · intro k
    simp only [keyColumns, List.mem_map, List.mem_filter, decide_eq_true_eq]
    constructor
    · rintro ⟨c, ⟨hc, hk⟩, rfl⟩
      exact ⟨hk, c, hc, rfl⟩
    · rintro ⟨hk, c, hc, rfl⟩
      exact ⟨c, ⟨hc, hk⟩, rfl⟩

/-- Witness of `update_statement_text` at the table foo8, whose column `name`
is not in the primary key. -/
theorem update_statement_text_witness :
    (nonKeyColumns foo8 ++ keyColumns foo8).Perm foo8.columns :=
  (update_statement_text (fun s => s) foo8
    ⟨⟨lit "name", lit "Name", lit "VARCHAR", 191, false, false, [], false⟩,
      by decide, by decide⟩).2.2.2.1

/-- C12: for every table whose column names are distinct and whose primary-key
names are distinct and all name columns of the table, the Select statement is
SELECT, every quoted column in declaration order joined by a comma and a
space, FROM, the quoted table name, WHERE and one term per column named in the
primary key, in declaration order joined by AND; these columns carry exactly
the names of the primary key, one condition each; and row.Scan is given the
fields of all columns in the order of the select list. -/
theorem select_statement_text (fmtQ : GoString → GoString) (t : table)
    (hcols : (t.columns.map (fun c => c.name)).Nodup)
    (hpk : t.primaryKey.columns.Nodup)
    (hsub : ∀ k ∈ t.primaryKey.columns, k ∈ t.columns.map (fun c => c.name)) :
    sqlSelect t
        = lit "SELECT " ++ join (lit ", ") (t.columns.map (fun c => quote c.name))
          ++ lit " FROM " ++ quote t.name
          ++ lit " WHERE "
          ++ join (lit " AND ")
              ((t.columns.filter (fun c => decide (c.name ∈ t.primaryKey.columns))).map
                (fun c => quote c.name ++ lit " = ?"))
      ∧ ((t.columns.filter (fun c => decide (c.name ∈ t.primaryKey.columns))).map
          (fun c => c.name)).Perm t.primaryKey.columns
      ∧ (t.columns.filter (fun c => decide (c.name ∈ t.primaryKey.columns))).length
          = t.primaryKey.columns.length
      ∧ generateGoTableSelect fmtQ t
        = lit "func Select" ++ t.rawName
          ++ lit "(ctx context.Context, queryer queryer, primaryKeys *" ++ t.rawName
          ++ lit ") (*" ++ t.rawName ++ lit ", error) \x7b\n"
          ++ lit "var v " ++ t.rawName ++ lit "\n"
          ++ lit "row := queryer.QueryRowContext(ctx, " ++ fmtQ (sqlSelect t) ++ lit ", "
          ++ join (lit ", ") (selectFields t.primaryKey.columns t.columns).params ++ lit ")\n"
          ++ lit "if err := row.Scan("
          ++ join (lit ", ") (t.columns.map (fun c => lit "&v." ++ c.rawName))
          ++ lit "); err != nil \x7b\n return nil, err \n\x7d\n"
          ++ lit "return &v, nil\n"
          ++ lit "\x7d\n\n" := by
  obtain ⟨e1, e2, e3, _⟩ := selectFields_eq t.primaryKey.columns hpk t.columns
  have hperm := keyColumns_perm t.primaryKey.columns t.columns hcols hpk hsub
  refine ⟨?_, hperm, ?_, ?_⟩
  · unfold sqlSelect
    rw [e1, e3]
    rfl
  · have := hperm.length_eq
    rwa [List.length_map] at this
  · unfold generateGoTableSelect
    rw [e2]

/-- Witness of `select_statement_text` at the table foo8. -/
theorem select_statement_text_witness :
    ((foo8.columns.filter (fun c => decide (c.name ∈ foo8.primaryKey.columns))).map
        (fun c => c.name)).Perm foo8.primaryKey.columns :=
  (select_statement_text (fun s => s) foo8 (by decide) (by decide) (by decide)).2.1

/-! ## Generate: absence of validation, and Scenario A -/

/-- When every struct parses and the sink accepts the text, `Generate` returns
nil after one write, whatever the tables are. -/
theorem Generate_of_parse_ok {α E : Type} (newTable : α → Except E table)
    (w : GoString → Nat × Option E) (m : Maker α) (ts : List table)
    (hparse : m.structs.map newTable = ts.map Except.ok)
    (hsink : w (lit "SET foreign_key_checks=0;\n"
        ++ ts.flatMap (generateTable m.config)
        ++ lit "SET foreign_key_checks=1;\n")
      = ((lit "SET foreign_key_checks=0;\n"
        ++ ts.flatMap (generateTable m.config)
        ++ lit "SET foreign_key_checks=1;\n").length, none)) :
    Generate newTable w m
      = GenResult.done ⟨m.config, m.structs, ts.map some⟩
          [lit "SET foreign_key_checks=0;\n"
            ++ ts.flatMap (generateTable m.config)
            ++ lit "SET foreign_key_checks=1;\n"] none := by
  unfold Generate parse
  rw [parseLoop_ok newTable _ _ hparse]
  simp only [Option.map_none', derefTables_map_some]
  rw [hsink]
  simp

/-- C13, the code at the input of the test: the structs Foo11 and Foo12 give two
tables named foo11, both parse, and Generate returns nil and writes a script
with a block for each of them; no duplicate name is reported. -/
theorem generate_accepts_duplicate_table_name :
    foo11.name = foo12.name
      ∧ Generate (fun t : table => (Except.ok t : Except GoString table))
          (fun text => (text.length, none))
          (AddStructs (New (some testConfig)) [foo11, foo12])
        = GenResult.done ⟨some testConfig, [foo11, foo12], [some foo11, some foo12]⟩
            [lit "SET foreign_key_checks=0;\n"
              ++ (generateTable (some testConfig) foo11
                ++ generateTable (some testConfig) foo12)
              ++ lit "SET foreign_key_checks=1;\n"] none := by
  refine ⟨rfl, ?_⟩
  have h := Generate_of_parse_ok (fun t : table => (Except.ok t : Except GoString table))
    (fun text => (text.length, none))
    (AddStructs (New (some testConfig)) [foo11, foo12]) [foo11, foo12] rfl rfl
  simpa [AddStructs, New] using h

/-- C14, the code at the input of the test: the primary key of the table of
Foo14 names unknown_column, which is not a column of the table; the table
parses, and Generate returns nil and writes the script, whose PRIMARY KEY line
names the unknown column. -/
theorem generate_accepts_unknown_key_column :
    lit "unknown_column" ∈ foo14.primaryKey.columns
      ∧ lit "unknown_column" ∉ foo14.columns.map (fun c => c.name)
      ∧ Generate (fun t : table => (Except.ok t : Except GoString table))
          (fun text => (text.length, none))
          (AddStructs (New (some testConfig)) [foo14])
        = GenResult.done ⟨some testConfig, [foo14], [some foo14]⟩
            [lit "SET foreign_key_checks=0;\n"
              ++ generateTable (some testConfig) foo14
              ++ lit "SET foreign_key_checks=1;\n"] none := by
  refine ⟨by decide, by decide, ?_⟩
  have h := Generate_of_parse_ok (fun t : table => (Except.ok t : Except GoString table))
    (fun text => (text.length, none))
    (AddStructs (New (some testConfig)) [foo14]) [foo14] rfl rfl
  simpa [AddStructs, New] using h

theorem generateTable_foo1 :
    generateTable (some testConfig) foo1
      = lit "DROP TABLE IF EXISTS `foo1`;\n\nCREATE TABLE `foo1` (\n    `id` INTEGER NOT NULL,\n    PRIMARY KEY (`id`)\n) ENGINE = InnoDB DEFAULT CHARACTER SET = utf8mb4;\n\n" := by
  decide

set_option maxRecDepth 4000 in
theorem generate_foo1_text :
    lit "SET foreign_key_checks=0;\n"
        ++ [foo1].flatMap (generateTable (some testConfig))
        ++ lit "SET foreign_key_checks=1;\n"
      = lit "SET foreign_key_checks=0;\nDROP TABLE IF EXISTS `foo1`;\n\nCREATE TABLE `foo1` (\n    `id` INTEGER NOT NULL,\n    PRIMARY KEY (`id`)\n) ENGINE = InnoDB DEFAULT CHARACTER SET = utf8mb4;\n\nSET foreign_key_checks=1;\n" := by
  simp only [List.flatMap_cons, List.flatMap_nil, List.append_nil, generateTable_foo1]
  decide

/-- C20, the code at the input of the test: for the table foo1 with engine
InnoDB and character set utf8mb4 (DBConfig cannot hold a collation), Generate
writes a script that has no blank line after the first pragma, writes the
options as ENGINE = InnoDB DEFAULT CHARACTER SET = utf8mb4 and has no COLLATE
clause; it is not the text of the claim. -/
theorem generate_scenario_A_text :
    Generate (fun t : table => (Except.ok t : Except GoString table))
        (fun text => (text.length, none))
        (AddStructs (New (some testConfig)) [foo1])
      = GenResult.done ⟨some testConfig, [foo1], [some foo1]⟩
          [lit "SET foreign_key_checks=0;\nDROP TABLE IF EXISTS `foo1`;\n\nCREATE TABLE `foo1` (\n    `id` INTEGER NOT NULL,\n    PRIMARY KEY (`id`)\n) ENGINE = InnoDB DEFAULT CHARACTER SET = utf8mb4;\n\nSET foreign_key_checks=1;\n"]
          none
    ∧ lit "SET foreign_key_checks=0;\nDROP TABLE IF EXISTS `foo1`;\n\nCREATE TABLE `foo1` (\n    `id` INTEGER NOT NULL,\n    PRIMARY KEY (`id`)\n) ENGINE = InnoDB DEFAULT CHARACTER SET = utf8mb4;\n\nSET foreign_key_checks=1;\n"
      ≠ lit "SET foreign_key_checks=0;\n\nDROP TABLE IF EXISTS `foo1`;\n\nCREATE TABLE `foo1` (\n    `id` INTEGER NOT NULL,\n    PRIMARY KEY (`id`)\n) ENGINE=InnoDB DEFAULT CHARACTER SET=utf8mb4 DEFAULT COLLATE=utf8mb4_bin;\n\nSET foreign_key_checks=1;\n" := by
  refine ⟨?_, by decide⟩
  have h := Generate_of_parse_ok (fun t : table => (Except.ok t : Except GoString table))
    (fun text => (text.length, none))
    (AddStructs (New (some testConfig)) [foo1]) [foo1] rfl rfl
  rw [h]
  have hcfg : (AddStructs (New (some testConfig) : Maker table) [foo1]).config
      = some testConfig := rfl
  rw [hcfg, generate_foo1_text]
  rfl

/-! ## DDL lines -/

/-- C15: generateColumn writes four spaces, the back-quoted name, a space, the
type token, then the size in parentheses if and only if the size is non-zero,
unsigned if and only if the flag is set, NULL if nullable and NOT NULL
otherwise, DEFAULT and the literal verbatim if and only if the default is
non-empty, AUTO_INCREMENT if and only if the flag is set, and a comma and a
newline, in that order.  A column has no character-set or collation field. -/
theorem generateColumn_text (col : column) :
    ∃ sizePart unsignedPart nullPart defaultPart autoPart : GoString,
      generateColumn col
          = lit "    " ++ quote col.name ++ lit " " ++ col.typ
            ++ sizePart ++ unsignedPart ++ nullPart ++ defaultPart ++ autoPart ++ lit ",\n"
        ∧ (col.size ≠ 0 → sizePart = lit "(" ++ fmtInt col.size ++ lit ")")
        ∧ (col.size = 0 → sizePart = [])
        ∧ (col.unsigned = true → unsignedPart = lit " unsigned")
        ∧ (col.unsigned = false → unsignedPart = [])
        ∧ (col.null = true → nullPart = lit " NULL")
        ∧ (col.null = false → nullPart = lit " NOT NULL")
        ∧ (col.dflt ≠ [] → defaultPart = lit " DEFAULT " ++ col.dflt)
        ∧ (col.dflt = [] → defaultPart = [])
        ∧ (col.autoIncr = true → autoPart = lit " AUTO_INCREMENT")
        ∧ (col.autoIncr = false → autoPart = []) := by
  refine ⟨if col.size ≠ 0 then lit "(" ++ fmtInt col.size ++ lit ")" else [],
    if col.unsigned then lit " unsigned" else [],
    if col.null then lit " NULL" else lit " NOT NULL",
    if col.dflt ≠ [] then lit " DEFAULT " ++ col.dflt else [],
    if col.autoIncr then lit " AUTO_INCREMENT" else [], rfl, ?_⟩
  refine ⟨fun h => if_pos h, fun h => if_neg (not_not.mpr h), ?_, ?_, ?_, ?_,
    fun h => if_pos h, fun h => if_neg (not_not.mpr h), ?_, ?_⟩
  all_goals (intro h; simp [h])

/-- C16: the line of a regular index is four spaces, INDEX, the back-quoted
name, the back-quoted column names in their order joined by a comma and a
space in parentheses, then INVISIBLE if and only if the flag is set, then
COMMENT and stringQuote(comment) if and only if the comment is non-empty, then
a comma and a newline; the line of a unique index is the same with UNIQUE. -/
theorem index_line_text :
    (∀ idx : Index, ∃ invisiblePart commentPart : GoString,
      generateIndexLine idx
          = lit "    INDEX " ++ quote idx.name ++ lit " ("
            ++ join (lit ", ") (idx.columns.map quote) ++ lit ")"
            ++ invisiblePart ++ commentPart ++ lit ",\n"
        ∧ (idx.invisible = true → invisiblePart = lit " INVISIBLE")
        ∧ (idx.invisible = false → invisiblePart = [])
        ∧ (idx.comment ≠ [] → commentPart = lit " COMMENT " ++ stringQuote idx.comment)
        ∧ (idx.comment = [] → commentPart = []))
    ∧ (∀ idx : UniqueIndex, ∃ invisiblePart commentPart : GoString,
      generateUniqueLine idx
          = lit "    UNIQUE " ++ quote idx.name ++ lit " ("
            ++ join (lit ", ") (idx.columns.map quote) ++ lit ")"
            ++ invisiblePart ++ commentPart ++ lit ",\n"
        ∧ (idx.invisible = true → invisiblePart = lit " INVISIBLE")
        ∧ (idx.invisible = false → invisiblePart = [])
        ∧ (idx.comment ≠ [] → commentPart = lit " COMMENT " ++ stringQuote idx.comment)
        ∧ (idx.comment = [] → commentPart = [])) := by
  constructor
  · intro idx
    refine ⟨if idx.invisible then lit " INVISIBLE" else [],
      if idx.comment ≠ [] then lit " COMMENT " ++ stringQuote idx.comment else [], rfl,
      ?_, ?_, fun h => if_pos h, fun h => if_neg (not_not.mpr h)⟩
    all_goals (intro h; simp [h])
  · intro idx
    refine ⟨if idx.invisible then lit " INVISIBLE" else [],
      if idx.comment ≠ [] then lit " COMMENT " ++ stringQuote idx.comment else [], rfl,
      ?_, ?_, fun h => if_pos h, fun h => if_neg (not_not.mpr h)⟩
    all_goals (intro h; simp [h])

/-- C17: the line of a foreign key is four spaces, CONSTRAINT, the quoted
name, FOREIGN KEY and the quoted local columns in parentheses, REFERENCES, the
quoted table and the quoted referenced columns in parentheses, then ON UPDATE
and the action if and only if an update action is set, then ON DELETE and the
action if and only if a delete action is set, then a comma and a newline. -/
theorem foreign_key_line_text (fk : ForeignKey) :
    ∃ updatePart deletePart : GoString,
      generateForeignKeyLine fk
          = lit "    CONSTRAINT " ++ quote fk.name ++ lit " FOREIGN KEY ("
            ++ join (lit ", ") (fk.columns.map quote) ++ lit ") REFERENCES "
            ++ quote fk.table ++ lit " ("
            ++ join (lit ", ") (fk.references.map quote) ++ lit ")"
            ++ updatePart ++ deletePart ++ lit ",\n"
        ∧ (fk.onUpdate ≠ [] → updatePart = lit " ON UPDATE " ++ fk.onUpdate)
        ∧ (fk.onUpdate = [] → updatePart = [])
        ∧ (fk.onDelete ≠ [] → deletePart = lit " ON DELETE " ++ fk.onDelete)
        ∧ (fk.onDelete = [] → deletePart = []) :=
  ⟨if fk.onUpdate ≠ [] then lit " ON UPDATE " ++ fk.onUpdate else [],
    if fk.onDelete ≠ [] then lit " ON DELETE " ++ fk.onDelete else [], rfl,
    fun h => if_pos h, fun h => if_neg (not_not.mpr h),
    fun h => if_pos h, fun h => if_neg (not_not.mpr h)⟩

/-- C18: the body of CREATE TABLE is the column lines in declaration order,
then the regular-index lines, the unique-index lines and the foreign-key lines,
each group in its order, then the line PRIMARY KEY with the back-quoted names
of the primary key in the order given to NewPrimaryKey, which ends with the
closing parenthesis and a newline, without a comma. -/
theorem create_table_body_order (config : Option Config) (t : table) :
    generateTable config t
        = lit "DROP TABLE IF EXISTS " ++ quote t.name ++ lit ";\n\n"
          ++ lit "CREATE TABLE " ++ quote t.name ++ lit " (\n"
          ++ t.columns.flatMap generateColumn
          ++ t.indexes.flatMap generateIndexLine
          ++ t.uniqueIndexes.flatMap generateUniqueLine
          ++ t.foreignKeys.flatMap generateForeignKeyLine
          ++ lit "    PRIMARY KEY (" ++ join (lit ", ") (t.primaryKey.columns.map quote)
          ++ lit ")\n"
          ++ lit ")" ++ tableOptions config ++ lit ";\n\n"
      ∧ (∀ field : List GoString, (NewPrimaryKey field).columns = field)
      ∧ (∀ col : column, ∃ line, generateColumn col = line ++ lit ",\n")
      ∧ (∀ idx : Index, ∃ line, generateIndexLine idx = line ++ lit ",\n")
      ∧ (∀ idx : UniqueIndex, ∃ line, generateUniqueLine idx = line ++ lit ",\n")
      ∧ (∀ fk : ForeignKey, ∃ line, generateForeignKeyLine fk = line ++ lit ",\n") := by
  refine ⟨?_, fun _ => rfl, fun col => ⟨_, rfl⟩, fun idx => ⟨_, rfl⟩, fun idx => ⟨_, rfl⟩,
    fun fk => ⟨_, rfl⟩⟩
  simp only [generateTable, generateIndex, quoteAll, List.append_assoc]

/-- C19: after the closing parenthesis of CREATE TABLE come the clause
ENGINE = engine if and only if the configured engine is non-empty, then the
clause DEFAULT CHARACTER SET = charset if and only if the configured charset
is non-empty; with a nil configuration or a nil DB configuration there is no
clause; the statement ends with a semicolon and a blank line. -/
theorem table_options_text (config : Option Config) (t : table) :
    (∃ enginePart charsetPart : GoString,
      generateTable config t
          = lit "DROP TABLE IF EXISTS " ++ quote t.name ++ lit ";\n\n"
            ++ lit "CREATE TABLE " ++ quote t.name ++ lit " (\n"
            ++ t.columns.flatMap generateColumn
            ++ generateIndex t
            ++ lit "    PRIMARY KEY (" ++ join (lit ", ") (quoteAll t.primaryKey.columns)
            ++ lit ")\n"
            ++ lit ")" ++ enginePart ++ charsetPart ++ lit ";\n\n"
        ∧ (config = none → enginePart = [] ∧ charsetPart = [])
        ∧ (∀ c, config = some c → c.DB = none → enginePart = [] ∧ charsetPart = [])
        ∧ (∀ c db, config = some c → c.DB = some db →
            (db.Engine ≠ [] → enginePart = lit " ENGINE = " ++ db.Engine)
            ∧ (db.Engine = [] → enginePart = [])
            ∧ (db.Charset ≠ [] → charsetPart = lit " DEFAULT CHARACTER SET = " ++ db.Charset)
            ∧ (db.Charset = [] → charsetPart = []))) := by
  cases config with
  | none =>
    refine ⟨[], [], by simp [generateTable, tableOptions], fun _ => ⟨rfl, rfl⟩, ?_, ?_⟩
    · intro c hc
      simp at hc
    · intro c db hc
      simp at hc
  | some c =>
    cases hdb : c.DB with
    | none =>
      refine ⟨[], [], by simp [generateTable, tableOptions, hdb], fun h => by simp at h,
        fun _ _ _ => ⟨rfl, rfl⟩, ?_⟩
      intro c2 db hc hdb2
      simp only [Option.some.injEq] at hc
      subst hc
      rw [hdb] at hdb2
      simp at hdb2
    | some db =>
      refine ⟨if db.Engine ≠ [] then lit " ENGINE = " ++ db.Engine else [],
        if db.Charset ≠ [] then lit " DEFAULT CHARACTER SET = " ++ db.Charset else [],
        by simp [generateTable, tableOptions, hdb, List.append_assoc], fun h => by simp at h,
        ?_, ?_⟩
      · intro c2 hc hdb2
        simp only [Option.some.injEq] at hc
        subst hc
        rw [hdb] at hdb2
        simp at hdb2
      · intro c2 db2 hc hdb2
        simp only [Option.some.injEq] at hc
        subst hc
        rw [hdb] at hdb2
        simp only [Option.some.injEq] at hdb2
        subst hdb2
        exact ⟨fun h => if_pos h, fun h => if_neg (not_not.mpr h),
          fun h => if_pos h, fun h => if_neg (not_not.mpr h)⟩


/-! ## Generate: failure and determinism -/

theorem parseLoop_first_failure {α E : Type} (newTable : α → Except E table) :
    ∀ (pre : List α) (ts : List table) (s : α) (post : List α) (err : E),
      pre.map newTable = ts.map Except.ok → newTable s = Except.error err →
      parseLoop newTable (pre ++ s :: post)
        = (ts.map some ++ none :: post.map (fun _ => none), some err) := by
  intro pre
  induction pre with
  | nil =>
    intro ts s post err h hs
    cases ts with
    | nil => simp [parseLoop, hs]
    | cons t r => simp at h
  | cons x rest ih =>
    intro ts s post err h hs
    cases ts with
    | nil => simp at h
    | cons t r =>
      simp only [List.map_cons, List.cons.injEq] at h
      obtain ⟨h1, h2⟩ := h
      have hrec := ih r s post err h2 hs
      show parseLoop newTable (x :: (rest ++ s :: post)) = _
      simp only [parseLoop, h1, hrec, List.map_cons, List.cons_append]

theorem parseLoop_length {α E : Type} (newTable : α → Except E table) (structs : List α) :
    (parseLoop newTable structs).1.length = structs.length := by
  induction structs with
  | nil => rfl
  | cons s rest ih =>
    simp only [parseLoop]
    cases newTable s with
    | error e => simp
    | ok t => simp [ih]

/-- C21: if building the table of a struct fails while all structs before it
parse, Generate returns the error of that struct wrapped by parse and issues
no write on the sink; when every struct parses, Generate issues one write and
returns nil if the sink accepts it, so it fails only when the sink returns an
error (which is returned), reports a short write or reports more bytes than it
was given. -/
theorem generate_parse_failure_atomic {α E : Type} (newTable : α → Except E table)
    (w : GoString → Nat × Option E) (m : Maker α) :
    (∀ (pre : List α) (ts : List table) (s : α) (post : List α) (err : E),
        m.structs = pre ++ s :: post →
        pre.map newTable = ts.map Except.ok → newTable s = Except.error err →
        Generate newTable w m
          = GenResult.done
              ⟨m.config, m.structs, ts.map some ++ none :: post.map (fun _ => none)⟩ []
              (some (GenError.parse err)))
      ∧ (∀ ts : List table, m.structs.map newTable = ts.map Except.ok →
          (w (lit "SET foreign_key_checks=0;\n" ++ ts.flatMap (generateTable m.config)
                ++ lit "SET foreign_key_checks=1;\n")
              = ((lit "SET foreign_key_checks=0;\n" ++ ts.flatMap (generateTable m.config)
                ++ lit "SET foreign_key_checks=1;\n").length, none) →
            Generate newTable w m
              = GenResult.done ⟨m.config, m.structs, ts.map some⟩
                  [lit "SET foreign_key_checks=0;\n" ++ ts.flatMap (generateTable m.config)
                    ++ lit "SET foreign_key_checks=1;\n"] none)
          ∧ (∀ m1 writes gerr, Generate newTable w m = GenResult.done m1 writes (some gerr) →
              writes = [lit "SET foreign_key_checks=0;\n" ++ ts.flatMap (generateTable m.config)
                    ++ lit "SET foreign_key_checks=1;\n"]
              ∧ ((∃ e, (w (lit "SET foreign_key_checks=0;\n"
                      ++ ts.flatMap (generateTable m.config)
                      ++ lit "SET foreign_key_checks=1;\n")).2 = some e
                    ∧ gerr = GenError.write e)
                ∨ ((w (lit "SET foreign_key_checks=0;\n"
                      ++ ts.flatMap (generateTable m.config)
                      ++ lit "SET foreign_key_checks=1;\n")).1
                    ≠ (lit "SET foreign_key_checks=0;\n"
                      ++ ts.flatMap (generateTable m.config)
                      ++ lit "SET foreign_key_checks=1;\n").length
                  ∧ gerr = GenError.shortWrite)))) := by
  constructor
  · intro pre ts s post err hm hpre hs
    unfold Generate parse
    rw [hm, parseLoop_first_failure newTable pre ts s post err hpre hs]
    rfl
  · intro ts hparse
    constructor
    · intro hsink
      exact Generate_of_parse_ok newTable w m ts hparse hsink
    · intro m1 writes gerr hgen
      unfold Generate parse at hgen
      rw [parseLoop_ok newTable _ _ hparse] at hgen
      simp only [Option.map_none', derefTables_map_some] at hgen
      generalize lit "SET foreign_key_checks=0;\n" ++ ts.flatMap (generateTable m.config)
        ++ lit "SET foreign_key_checks=1;\n" = buf at hgen ⊢
      rcases hw : w buf with ⟨n, werr⟩
      rw [hw] at hgen
      cases werr with
      | some e =>
        simp only at hgen
        split_ifs at hgen with h1
        simp only [GenResult.done.injEq, Option.some.injEq] at hgen
        exact ⟨hgen.2.1.symm, Or.inl ⟨e, rfl, hgen.2.2.symm⟩⟩
      | none =>
        simp only at hgen
        split_ifs at hgen with h1 h2
        · simp only [GenResult.done.injEq, Option.some.injEq] at hgen
          exact ⟨hgen.2.1.symm, Or.inr ⟨h2, hgen.2.2.symm⟩⟩
        · simp at hgen

theorem Generate_state {α E : Type} (newTable : α → Except E table)
    (w : GoString → Nat × Option E) (m m1 : Maker α) (writes : List GoString)
    (gerr : Option (GenError E))
    (h : Generate newTable w m = GenResult.done m1 writes gerr) :
    m1 = ⟨m.config, m.structs, (parseLoop newTable m.structs).1⟩
      ∧ writes = (match (parseLoop newTable m.structs).2 with
          | some _ => []
          | none =>
            match derefTables (parseLoop newTable m.structs).1 with
            | none => []
            | some ts =>
              [lit "SET foreign_key_checks=0;\n" ++ ts.flatMap (generateTable m.config)
                ++ lit "SET foreign_key_checks=1;\n"]) := by
  unfold Generate parse at h
  cases hp : (parseLoop newTable m.structs).2 with
  | some e =>
    rw [hp] at h
    simp only [Option.map_some', GenResult.done.injEq] at h
    exact ⟨h.1.symm, h.2.1.symm⟩
  | none =>
    rw [hp] at h
    simp only [Option.map_none'] at h
    cases hd : derefTables (parseLoop newTable m.structs).1 with
    | none => rw [hd] at h; simp at h
    | some ts =>
      rw [hd] at h
      simp only at h ⊢
      generalize lit "SET foreign_key_checks=0;\n" ++ ts.flatMap (generateTable m.config)
        ++ lit "SET foreign_key_checks=1;\n" = buf at h ⊢
      rcases hw : w buf with ⟨n, werr⟩
      rw [hw] at h
      cases werr with
      | some e =>
        simp only at h
        split_ifs at h with h1
        simp only [GenResult.done.injEq] at h
        exact ⟨h.1.symm, h.2.1.symm⟩
      | none =>
        simp only at h
        split_ifs at h with h1 h2
        · simp only [GenResult.done.injEq] at h
          exact ⟨h.1.symm, h.2.1.symm⟩
        · simp only [GenResult.done.injEq] at h
          exact ⟨h.1.symm, h.2.1.symm⟩

/-- Generate reads only the configuration and the struct list of the maker. -/
theorem Generate_congr {α E : Type} (newTable : α → Except E table)
    (w : GoString → Nat × Option E) (m m1 : Maker α)
    (hc : m1.config = m.config) (hs : m1.structs = m.structs) :
    Generate newTable w m1 = Generate newTable w m := by
  unfold Generate parse
  rw [hc, hs]

/-- C22: if a call of Generate returns, the maker holds one table entry per
struct, rebuilt from the struct list whatever tables it held before, and its
struct list and configuration are unchanged; a second call on the resulting
maker with the same sink ends the same way, with the same state, the same
text written and the same error; with another sink, a second call that returns
leaves the same state and writes the same text. -/
theorem generate_deterministic {α E : Type} (newTable : α → Except E table)
    (w w2 : GoString → Nat × Option E) (m m1 : Maker α) (writes : List GoString)
    (gerr : Option (GenError E))
    (h : Generate newTable w m = GenResult.done m1 writes gerr) :
    Generate newTable w m1 = GenResult.done m1 writes gerr
      ∧ m1.structs = m.structs
      ∧ m1.config = m.config
      ∧ m1.tables = (parseLoop newTable m.structs).1
      ∧ m1.tables.length = m.structs.length
      ∧ (∀ m2 writes2 gerr2, Generate newTable w2 m1 = GenResult.done m2 writes2 gerr2 →
          m2 = m1 ∧ writes2 = writes) := by
  obtain ⟨hm1, hw1⟩ := Generate_state newTable w m m1 writes gerr h
  have hc : m1.config = m.config := by rw [hm1]
  have hs : m1.structs = m.structs := by rw [hm1]
  have ht : m1.tables = (parseLoop newTable m.structs).1 := by rw [hm1]
  refine ⟨?_, hs, hc, ht, ?_, ?_⟩
  · rw [Generate_congr newTable w m m1 hc hs]
    exact h
  · rw [ht, parseLoop_length]
  · intro m2 writes2 gerr2 h2
    obtain ⟨hm2, hw2⟩ := Generate_state newTable w2 m1 m2 writes2 gerr2 h2
    have hm21 : m2 = m1 := by
      rw [hm2, hc, hs]
      exact hm1.symm
    refine ⟨hm21, ?_⟩
    rw [hw2, hw1, hc, hs]

/-- Witness of `generate_deterministic`: the maker holding the struct of the
table foo1 and a sink that accepts every write. -/
theorem generate_deterministic_witness :
    Generate (fun t : table => (Except.ok t : Except GoString table))
        (fun text => (text.length, none))
        (⟨some testConfig, [foo1], [some foo1]⟩ : Maker table)
      = GenResult.done ⟨some testConfig, [foo1], [some foo1]⟩
          [lit "SET foreign_key_checks=0;\n"
            ++ [foo1].flatMap (generateTable (some testConfig))
            ++ lit "SET foreign_key_checks=1;\n"] none :=
  (generate_deterministic (fun t : table => (Except.ok t : Except GoString table))
    (fun text => (text.length, none)) (fun text => (text.length, none))
    (AddStructs (New (some testConfig)) [foo1])
    ⟨some testConfig, [foo1], [some foo1]⟩
    [lit "SET foreign_key_checks=0;\n"
      ++ [foo1].flatMap (generateTable (some testConfig))
      ++ lit "SET foreign_key_checks=1;\n"] none
    (Generate_of_parse_ok (fun t : table => (Except.ok t : Except GoString table))
      (fun text => (text.length, none))
      (AddStructs (New (some testConfig)) [foo1]) [foo1] rfl rfl)).1

/-! ## Insert: when generation fails -/

/-- C23: generateGoTableInsert panics if and only if the table has no
non-auto-increment column or more than 65535 of them: the divisor of line 335
is zero exactly when there is none, and, when there is one, the count passed
to strings.Repeat at line 340 is negative exactly when there are more than
65535; for every table with 1 <= F <= 65535 it completes and returns the whole
text of the Insert function: header, the constants q, fieldCount and
maxStructCount, and the loop with the joined fields and the two slice
coefficients, up to the closing brace. -/
theorem insert_generation_fails_iff (fmtQ : GoString → GoString) (t : table) :
    (generateGoTableInsert fmtQ t = none ↔ nonAutoCount t = 0 ∨ 65535 < nonAutoCount t)
      ∧ ((insertFields t.columns).2.1.length = 0 ↔ nonAutoCount t = 0)
      ∧ (1 ≤ nonAutoCount t →
          (((maxStructCount t : Int) - 1 < 0) ↔ 65535 < nonAutoCount t))
      ∧ (1 ≤ nonAutoCount t → nonAutoCount t ≤ 65535 →
          generateGoTableInsert fmtQ t
            = some (lit "func Insert" ++ t.rawName
                ++ lit "(ctx context.Context, execer execer, values ...*" ++ t.rawName
                ++ lit ") error \x7b"
                ++ lit "const q = " ++ fmtQ (insertHead t) ++ lit "+\n"
                ++ fmtQ (strRepeat (strPlaceholders t) (batchCap (nonAutoCount t) - 1))
                ++ lit "\n"
                ++ lit "const fieldCount = " ++ itoa (nonAutoCount t) ++ lit "\n"
                ++ lit "const maxStructCount = " ++ itoa (batchCap (nonAutoCount t))
                ++ lit "\n"
                ++ lit "count := len(values)\n\tif count > maxStructCount \x7b\n\t\tcount = maxStructCount\n\t\x7d\n\targs = make([]any, 0, count*fieldCount)\n\tfor len(values) > 0 \x7b\n\t\ti := len(values)\n\t\tif i > maxStructCount \x7b\n\t\t\ti = maxStructCount\n\t\t\x7d\n\t\tvals, rest := values[:i], values[i:]\n\t\targs = args[:0]\n\t\tfor _, v := range vals \x7b\n\t\t\targs = append(args, "
                ++ join (lit ", ")
                    ((nonAutoColumns t).map (fun c => lit "v." ++ c.rawName))
                ++ lit ")\n\t\t\x7d\n\t\t_, err := execer.ExecContext(ctx, q[:i*"
                ++ itoa (strPlaceholders t).length
                ++ lit "+"
                ++ fmtInt (((insertHead t).length : Int) - ((strPlaceholders t).length : Int))
                ++ lit "], args...)\n\t\tif err != nil \x7b\n\t\t\treturn err\n\t\t\x7d\n\t\tvalues = rest\n\t\x7d\n\treturn nil\n\x7d\n\n")) := by
  refine ⟨generateGoTableInsert_eq_none fmtQ t, by rw [placeholders_length], ?_, ?_⟩
  · intro h1
    rw [maxStructCount_eq]
    constructor
    · intro hneg
      by_contra hle
      have := batchCap_pos (nonAutoCount t) h1 (by omega)
      omega
    · intro hbig
      have : batchCap (nonAutoCount t) = 0 := by
        unfold batchCap
        rw [Nat.div_eq_of_lt hbig]
        rfl
      omega
  · intro h1 h2
    have hcap := batchCap_pos _ h1 h2
    have hfc : (insertConsts t).fieldCount = nonAutoCount t := by
      simp [insertConsts, placeholders_length]
    have hmc : (insertConsts t).maxStructCount = batchCap (nonAutoCount t) := by
      simp [insertConsts, maxStructCount_eq]
    have hsc : (insertConsts t).scale = (strPlaceholders t).length := rfl
    have hof : (insertConsts t).offset
        = ((insertHead t).length : Int) - ((strPlaceholders t).length : Int) := rfl
    unfold generateGoTableInsert insertLoopText
    rw [hfc, hmc, hsc, hof, placeholders_length, maxStructCount_eq, insertFields_values,
      if_neg (by omega), if_neg (by omega)]
    simp only [List.append_assoc]
    rfl

/-! ## Identifier quoting: one token -/

theorem encodeRune_no_backquote (r : Nat) (hr : r ≠ 96) : ∀ x ∈ encodeRune r, x ≠ 96 := by
  intro x hx
  unfold encodeRune at hx
  split_ifs at hx <;> simp at hx <;> omega

theorem scanQuoted_cons_ne (a : Nat) (l : GoString) (ha : a ≠ 96) :
    scanQuoted (a :: l) = (scanQuoted l).map (fun r => (a :: r.1, r.2)) := by
  cases l with
  | nil => simp [scanQuoted, ha]
  | cons b rest => simp [scanQuoted, ha]

theorem scanQuoted_block (block l : GoString) (hb : ∀ x ∈ block, x ≠ 96) :
    scanQuoted (block ++ l) = (scanQuoted l).map (fun r => (block ++ r.1, r.2)) := by
  induction block with
  | nil => simp
  | cons a rest ih =>
    rw [List.cons_append, scanQuoted_cons_ne a _ (hb a (by simp)),
      ih (fun x hx => hb x (by simp [hx]))]
    cases scanQuoted l <;> simp

theorem scanQuoted_quoteLoop (runes : List Nat) :
    scanQuoted (runes.flatMap quoteRune ++ [96]) = some (runes.flatMap encodeRune, []) := by
  induction runes with
  | nil => simp [scanQuoted]
  | cons r rest ih =>
    simp only [List.flatMap_cons, List.append_assoc]
    by_cases hr : r = 96
    · subst hr
      have h1 : quoteRune 96 = [96, 96] := by decide
      have h2 : encodeRune 96 = [96] := by decide
      rw [h1, h2]
      simp [scanQuoted, ih]
    · have hq : quoteRune r = encodeRune r := by simp [quoteRune, hr]
      rw [hq, scanQuoted_block _ _ (encodeRune_no_backquote r hr), ih]
      simp

theorem runsEvenFrom_block (block l : GoString) (hb : ∀ x ∈ block, x ≠ 96) :
    runsEvenFrom false (block ++ l) = runsEvenFrom false l := by
  induction block with
  | nil => rfl
  | cons a rest ih =>
    have ha : a ≠ 96 := hb a (by simp)
    simp [runsEvenFrom, ha, ih (fun x hx => hb x (by simp [hx]))]

theorem runsEven_quoteLoop (runes : List Nat) :
    runsEvenFrom false (runes.flatMap quoteRune) = true := by
  induction runes with
  | nil => rfl
  | cons r rest ih =>
    simp only [List.flatMap_cons]
    by_cases hr : r = 96
    · subst hr
      have h1 : quoteRune 96 = [96, 96] := by decide
      rw [h1]
      simp [runsEvenFrom, ih]
    · have hq : quoteRune r = encodeRune r := by simp [quoteRune, hr]
      rw [hq, runsEvenFrom_block _ _ (encodeRune_no_backquote r hr), ih]

/-- C24: for every input s, valid UTF-8 or not, quote(s) is a back quote, a
body and a back quote; every maximal run of back quotes of the body has even
length; and a scanner that reads a doubled back quote as a literal reads
quote(s) as exactly one identifier, with no input left over. -/
theorem quote_single_token (s : GoString) :
    ∃ body : GoString, quote s = [96] ++ body ++ [96]
      ∧ runsEven body = true
      ∧ scanIdent (quote s) = some ((rangeRunes s).flatMap encodeRune, []) := by
  refine ⟨(rangeRunes s).flatMap quoteRune, rfl, runsEven_quoteLoop _, ?_⟩
  unfold quote
  simp only [List.singleton_append, List.cons_append, scanIdent, if_true]
  exact scanQuoted_quoteLoop _

/-! ## String-literal quoting: round trip -/

theorem decodeTok_escapeOf (b : Nat) : decodeTok (escapeOf b) = b := by
  unfold escapeOf
  split_ifs <;> simp_all [decodeTok, unescapeChar]

theorem literalBody_stringQuote (s : GoString) :
    literalBody (stringQuote s) = s.flatMap stringQuoter := by
  simp [literalBody, stringQuote]

theorem decodeBody_stringQuote (s : GoString) :
    decodeBody (literalBody (stringQuote s)) = some s := by
  rw [literalBody_stringQuote]
  unfold decodeBody
  rw [scanBody_flatMap]
  simp only [Option.map_some', List.map_map, Option.some.injEq]
  have : (decodeTok ∘ escapeOf) = id := funext decodeTok_escapeOf
  rw [this, List.map_id]

/-- C25: for every input s, decoding the body of stringQuote(s) with the MySQL
escape table returns exactly s; hence stringQuote is injective. -/
theorem stringQuote_roundtrip :
    (∀ s : GoString, decodeBody (literalBody (stringQuote s)) = some s)
      ∧ Function.Injective stringQuote
      ∧ (unescapeChar 48 = 0 ∧ unescapeChar 39 = 39 ∧ unescapeChar 34 = 34
          ∧ unescapeChar 98 = 8 ∧ unescapeChar 110 = 10 ∧ unescapeChar 114 = 13
          ∧ unescapeChar 116 = 9 ∧ unescapeChar 90 = 26 ∧ unescapeChar 92 = 92) := by
  refine ⟨decodeBody_stringQuote, ?_, by decide⟩
  intro a b hab
  have ha := decodeBody_stringQuote a
  rw [hab, decodeBody_stringQuote b] at ha
  exact (Option.some.inj ha).symm

/-! ## Update and Select: arguments -/

theorem selectKeys_eq_matches (c : column) (keys : List GoString) :
    (selectKeys c keys).1
        = ((keys.filter (fun key => key == c.name)).map (fun _ => c)).map
            (fun c => lit "primaryKeys." ++ c.rawName)
      ∧ (selectKeys c keys).2
        = ((keys.filter (fun key => key == c.name)).map (fun _ => c)).map columnTerm := by
  induction keys with
  | nil => simp [selectKeys]
  | cons k rest ih =>
    by_cases h : k = c.name
    · simp [selectKeys, h, ih.1, ih.2, columnTerm]
    · simp [selectKeys, h, ih.1, ih.2]

theorem selectFields_eq_matches (keys : List GoString) (cols : List column) :
    (selectFields keys cols).params
        = (selectMatches keys cols).map (fun c => lit "primaryKeys." ++ c.rawName)
      ∧ (selectFields keys cols).conditions
        = (selectMatches keys cols).map columnTerm := by
  induction cols with
  | nil => simp [selectFields, selectMatches]
  | cons c rest ih =>
    have hk := selectKeys_eq_matches c keys
    unfold selectMatches at ih ⊢
    simp only [selectFields, List.flatMap_cons, List.map_append, ih.1, ih.2, hk.1, hk.2,
      and_self]

/-- C26: in the generated Update the SET terms and the first group of
arguments are built from the same columns, those the primary key does not
name, in the same order, and the WHERE terms and the second group of arguments
from the columns the primary key names, each argument being the field
value.rawName of the column whose quoted name its term holds; in the
generated Select the WHERE terms and the arguments are built from the same
list of columns in the same order, each argument being the field
primaryKeys.rawName of the column of its term. -/
theorem arguments_line_up (fmtQ : GoString → GoString) (t : table) :
    ((updateFields t.primaryKey.columns t.columns).setFields
          = (nonKeyColumns t).map (fun c => quote c.name ++ lit " = ?")
        ∧ (updateFields t.primaryKey.columns t.columns).goFields
          = (nonKeyColumns t).map (fun c => lit "value." ++ c.rawName)
        ∧ (updateFields t.primaryKey.columns t.columns).conditions
          = (keyColumns t).map (fun c => quote c.name ++ lit " = ?")
        ∧ (updateFields t.primaryKey.columns t.columns).params
          = (keyColumns t).map (fun c => lit "value." ++ c.rawName)
        ∧ updateStatement t
          = lit "UPDATE " ++ quote t.name ++ lit " SET "
            ++ join (lit ", ") (updateFields t.primaryKey.columns t.columns).setFields
            ++ lit " WHERE "
            ++ join (lit " AND ") (updateFields t.primaryKey.columns t.columns).conditions
        ∧ ((updateFields t.primaryKey.columns t.columns).setFields.length ≠ 0 →
            updateBody fmtQ t
              = lit "_, err := execer.ExecContext(ctx, " ++ fmtQ (updateStatement t)
                ++ lit ", "
                ++ join (lit ", ") (updateFields t.primaryKey.columns t.columns).goFields
                ++ lit ", "
                ++ join (lit ", ") (updateFields t.primaryKey.columns t.columns).params
                ++ lit ")\n"
                ++ lit "return err\n"))
      ∧ ((selectFields t.primaryKey.columns t.columns).conditions
          = (selectMatches t.primaryKey.columns t.columns).map
              (fun c => quote c.name ++ lit " = ?")
        ∧ (selectFields t.primaryKey.columns t.columns).params
          = (selectMatches t.primaryKey.columns t.columns).map
              (fun c => lit "primaryKeys." ++ c.rawName)
        ∧ sqlSelect t
          = lit "SELECT " ++ join (lit ", ") (selectFields t.primaryKey.columns t.columns).fields
            ++ lit " FROM " ++ quote t.name
            ++ lit " WHERE "
            ++ join (lit " AND ") (selectFields t.primaryKey.columns t.columns).conditions
        ∧ generateGoTableSelect fmtQ t
          = lit "func Select" ++ t.rawName
            ++ lit "(ctx context.Context, queryer queryer, primaryKeys *" ++ t.rawName
            ++ lit ") (*" ++ t.rawName ++ lit ", error) \x7b\n"
            ++ lit "var v " ++ t.rawName ++ lit "\n"
            ++ lit "row := queryer.QueryRowContext(ctx, " ++ fmtQ (sqlSelect t) ++ lit ", "
            ++ join (lit ", ") (selectFields t.primaryKey.columns t.columns).params
            ++ lit ")\n"
            ++ lit "if err := row.Scan("
            ++ join (lit ", ") (selectFields t.primaryKey.columns t.columns).goFields
            ++ lit "); err != nil \x7b\n return nil, err \n\x7d\n"
            ++ lit "return &v, nil\n"
            ++ lit "\x7d\n\n") := by
  obtain ⟨u1, u2, u3, u4⟩ := updateFields_eq t.primaryKey.columns t.columns
  obtain ⟨s1, s2⟩ := selectFields_eq_matches t.primaryKey.columns t.columns
  refine ⟨⟨u1, u3, u2, u4, rfl, ?_⟩, ⟨s2, s1, rfl, rfl⟩⟩
  intro hne
  unfold updateBody
  rw [if_pos hne]

/-! ## Insert: the emitted function does not declare `args` -/

set_option maxRecDepth 100000 in
theorem insertHeadText_foo8 :
    lit "func Insert" ++ foo8.rawName
        ++ lit "(ctx context.Context, execer execer, values ...*" ++ foo8.rawName
        ++ lit ") error \x7b"
        ++ lit "const q = " ++ fmtQPlain (insertHead foo8) ++ lit "+\n"
        ++ fmtQPlain (strRepeat (strPlaceholders foo8) (maxStructCount foo8 - 1)) ++ lit "\n"
        ++ lit "const fieldCount = " ++ itoa (insertConsts foo8).fieldCount ++ lit "\n"
        ++ lit "const maxStructCount = " ++ itoa (insertConsts foo8).maxStructCount ++ lit "\n"
      = lit "func InsertFoo8(ctx context.Context, execer execer, values ...*Foo8) error \x7bconst q = \"INSERT INTO `foo8` (`name`) VALUES (?)\"+\n\", (?), (?), (?), (?), (?), (?), (?), (?), (?), (?), (?), (?), (?), (?), (?), (?), (?), (?), (?), (?), (?), (?), (?), (?), (?), (?), (?), (?), (?), (?), (?)\"\nconst fieldCount = 1\nconst maxStructCount = 32\n" := by
  decide

set_option maxRecDepth 100000 in
theorem insertLoopText_foo8 :
    insertLoopText foo8
      = lit "count := len(values)\n\tif count > maxStructCount \x7b\n\t\tcount = maxStructCount\n\t\x7d\n\targs = make([]any, 0, count*fieldCount)\n\tfor len(values) > 0 \x7b\n\t\ti := len(values)\n\t\tif i > maxStructCount \x7b\n\t\t\ti = maxStructCount\n\t\t\x7d\n\t\tvals, rest := values[:i], values[i:]\n\t\targs = args[:0]\n\t\tfor _, v := range vals \x7b\n\t\t\targs = append(args, v.Name)\n\t\t\x7d\n\t\t_, err := execer.ExecContext(ctx, q[:i*5+33], args...)\n\t\tif err != nil \x7b\n\t\t\treturn err\n\t\t\x7d\n\t\tvalues = rest\n\t\x7d\n\treturn nil\n\x7d\n\n" := by
  decide

set_option maxRecDepth 100000 in
theorem insertText_foo8_append :
    lit "func InsertFoo8(ctx context.Context, execer execer, values ...*Foo8) error \x7bconst q = \"INSERT INTO `foo8` (`name`) VALUES (?)\"+\n\", (?), (?), (?), (?), (?), (?), (?), (?), (?), (?), (?), (?), (?), (?), (?), (?), (?), (?), (?), (?), (?), (?), (?), (?), (?), (?), (?), (?), (?), (?), (?)\"\nconst fieldCount = 1\nconst maxStructCount = 32\n"
        ++ lit "count := len(values)\n\tif count > maxStructCount \x7b\n\t\tcount = maxStructCount\n\t\x7d\n\targs = make([]any, 0, count*fieldCount)\n\tfor len(values) > 0 \x7b\n\t\ti := len(values)\n\t\tif i > maxStructCount \x7b\n\t\t\ti = maxStructCount\n\t\t\x7d\n\t\tvals, rest := values[:i], values[i:]\n\t\targs = args[:0]\n\t\tfor _, v := range vals \x7b\n\t\t\targs = append(args, v.Name)\n\t\t\x7d\n\t\t_, err := execer.ExecContext(ctx, q[:i*5+33], args...)\n\t\tif err != nil \x7b\n\t\t\treturn err\n\t\t\x7d\n\t\tvalues = rest\n\t\x7d\n\treturn nil\n\x7d\n\n"
      = lit "func InsertFoo8(ctx context.Context, execer execer, values ...*Foo8) error \x7bconst q = \"INSERT INTO `foo8` (`name`) VALUES (?)\"+\n\", (?), (?), (?), (?), (?), (?), (?), (?), (?), (?), (?), (?), (?), (?), (?), (?), (?), (?), (?), (?), (?), (?), (?), (?), (?), (?), (?), (?), (?), (?), (?)\"\nconst fieldCount = 1\nconst maxStructCount = 32\ncount := len(values)\n\tif count > maxStructCount \x7b\n\t\tcount = maxStructCount\n\t\x7d\n\targs = make([]any, 0, count*fieldCount)\n\tfor len(values) > 0 \x7b\n\t\ti := len(values)\n\t\tif i > maxStructCount \x7b\n\t\t\ti = maxStructCount\n\t\t\x7d\n\t\tvals, rest := values[:i], values[i:]\n\t\targs = args[:0]\n\t\tfor _, v := range vals \x7b\n\t\t\targs = append(args, v.Name)\n\t\t\x7d\n\t\t_, err := execer.ExecContext(ctx, q[:i*5+33], args...)\n\t\tif err != nil \x7b\n\t\t\treturn err\n\t\t\x7d\n\t\tvalues = rest\n\t\x7d\n\treturn nil\n\x7d\n\n" := by
  decide

theorem generateGoTableInsert_foo8 :
    generateGoTableInsert fmtQPlain foo8
      = some (lit "func InsertFoo8(ctx context.Context, execer execer, values ...*Foo8) error \x7bconst q = \"INSERT INTO `foo8` (`name`) VALUES (?)\"+\n\", (?), (?), (?), (?), (?), (?), (?), (?), (?), (?), (?), (?), (?), (?), (?), (?), (?), (?), (?), (?), (?), (?), (?), (?), (?), (?), (?), (?), (?), (?), (?)\"\nconst fieldCount = 1\nconst maxStructCount = 32\ncount := len(values)\n\tif count > maxStructCount \x7b\n\t\tcount = maxStructCount\n\t\x7d\n\targs = make([]any, 0, count*fieldCount)\n\tfor len(values) > 0 \x7b\n\t\ti := len(values)\n\t\tif i > maxStructCount \x7b\n\t\t\ti = maxStructCount\n\t\t\x7d\n\t\tvals, rest := values[:i], values[i:]\n\t\targs = args[:0]\n\t\tfor _, v := range vals \x7b\n\t\t\targs = append(args, v.Name)\n\t\t\x7d\n\t\t_, err := execer.ExecContext(ctx, q[:i*5+33], args...)\n\t\tif err != nil \x7b\n\t\t\treturn err\n\t\t\x7d\n\t\tvalues = rest\n\t\x7d\n\treturn nil\n\x7d\n\n") := by
  have hgen : generateGoTableInsert fmtQPlain foo8
      = some (lit "func Insert" ++ foo8.rawName
        ++ lit "(ctx context.Context, execer execer, values ...*" ++ foo8.rawName
        ++ lit ") error \x7b"
        ++ lit "const q = " ++ fmtQPlain (insertHead foo8) ++ lit "+\n"
        ++ fmtQPlain (strRepeat (strPlaceholders foo8) (maxStructCount foo8 - 1)) ++ lit "\n"
        ++ lit "const fieldCount = " ++ itoa (insertConsts foo8).fieldCount ++ lit "\n"
        ++ lit "const maxStructCount = " ++ itoa (insertConsts foo8).maxStructCount ++ lit "\n"
        ++ insertLoopText foo8) := by
    unfold generateGoTableInsert
    rw [if_neg (by decide), if_neg (by decide)]
  rw [hgen, insertHeadText_foo8, insertLoopText_foo8, insertText_foo8_append]

set_option maxRecDepth 100000 in
theorem insert_foo8_assigns_args :
    containsText (lit "\targs = make([]any, 0, count*fieldCount)\n")
      (lit "func InsertFoo8(ctx context.Context, execer execer, values ...*Foo8) error \x7bconst q = \"INSERT INTO `foo8` (`name`) VALUES (?)\"+\n\", (?), (?), (?), (?), (?), (?), (?), (?), (?), (?), (?), (?), (?), (?), (?), (?), (?), (?), (?), (?), (?), (?), (?), (?), (?), (?), (?), (?), (?), (?), (?)\"\nconst fieldCount = 1\nconst maxStructCount = 32\ncount := len(values)\n\tif count > maxStructCount \x7b\n\t\tcount = maxStructCount\n\t\x7d\n\targs = make([]any, 0, count*fieldCount)\n\tfor len(values) > 0 \x7b\n\t\ti := len(values)\n\t\tif i > maxStructCount \x7b\n\t\t\ti = maxStructCount\n\t\t\x7d\n\t\tvals, rest := values[:i], values[i:]\n\t\targs = args[:0]\n\t\tfor _, v := range vals \x7b\n\t\t\targs = append(args, v.Name)\n\t\t\x7d\n\t\t_, err := execer.ExecContext(ctx, q[:i*5+33], args...)\n\t\tif err != nil \x7b\n\t\t\treturn err\n\t\t\x7d\n\t\tvalues = rest\n\t\x7d\n\treturn nil\n\x7d\n\n") = true := by
  decide

set_option maxRecDepth 100000 in
theorem insert_foo8_no_short_declaration :
    containsText (lit "args :=")
      (lit "func InsertFoo8(ctx context.Context, execer execer, values ...*Foo8) error \x7bconst q = \"INSERT INTO `foo8` (`name`) VALUES (?)\"+\n\", (?), (?), (?), (?), (?), (?), (?), (?), (?), (?), (?), (?), (?), (?), (?), (?), (?), (?), (?), (?), (?), (?), (?), (?), (?), (?), (?), (?), (?), (?), (?)\"\nconst fieldCount = 1\nconst maxStructCount = 32\ncount := len(values)\n\tif count > maxStructCount \x7b\n\t\tcount = maxStructCount\n\t\x7d\n\targs = make([]any, 0, count*fieldCount)\n\tfor len(values) > 0 \x7b\n\t\ti := len(values)\n\t\tif i > maxStructCount \x7b\n\t\t\ti = maxStructCount\n\t\t\x7d\n\t\tvals, rest := values[:i], values[i:]\n\t\targs = args[:0]\n\t\tfor _, v := range vals \x7b\n\t\t\targs = append(args, v.Name)\n\t\t\x7d\n\t\t_, err := execer.ExecContext(ctx, q[:i*5+33], args...)\n\t\tif err != nil \x7b\n\t\t\treturn err\n\t\t\x7d\n\t\tvalues = rest\n\t\x7d\n\treturn nil\n\x7d\n\n") = false := by
  decide

set_option maxRecDepth 100000 in
theorem insert_foo8_no_var_declaration :
    containsText (lit "var args")
      (lit "func InsertFoo8(ctx context.Context, execer execer, values ...*Foo8) error \x7bconst q = \"INSERT INTO `foo8` (`name`) VALUES (?)\"+\n\", (?), (?), (?), (?), (?), (?), (?), (?), (?), (?), (?), (?), (?), (?), (?), (?), (?), (?), (?), (?), (?), (?), (?), (?), (?), (?), (?), (?), (?), (?), (?)\"\nconst fieldCount = 1\nconst maxStructCount = 32\ncount := len(values)\n\tif count > maxStructCount \x7b\n\t\tcount = maxStructCount\n\t\x7d\n\targs = make([]any, 0, count*fieldCount)\n\tfor len(values) > 0 \x7b\n\t\ti := len(values)\n\t\tif i > maxStructCount \x7b\n\t\t\ti = maxStructCount\n\t\t\x7d\n\t\tvals, rest := values[:i], values[i:]\n\t\targs = args[:0]\n\t\tfor _, v := range vals \x7b\n\t\t\targs = append(args, v.Name)\n\t\t\x7d\n\t\t_, err := execer.ExecContext(ctx, q[:i*5+33], args...)\n\t\tif err != nil \x7b\n\t\t\treturn err\n\t\t\x7d\n\t\tvalues = rest\n\t\x7d\n\treturn nil\n\x7d\n\n") = false := by
  decide

/-- C8, the code at the table foo8: generateGoTableInsert emits exactly the
text below.  Its body assigns args with an equals sign before the loop, and
the text holds neither a short declaration of args nor a var declaration of
args, and args is no parameter of the function: the emitted function refers to
an undeclared name, so the generated file does not build and no statement is
ever issued. -/
theorem insert_foo8_args_undeclared :
    ∃ text : GoString, generateGoTableInsert fmtQPlain foo8 = some text
      ∧ text = lit "func InsertFoo8(ctx context.Context, execer execer, values ...*Foo8) error \x7bconst q = \"INSERT INTO `foo8` (`name`) VALUES (?)\"+\n\", (?), (?), (?), (?), (?), (?), (?), (?), (?), (?), (?), (?), (?), (?), (?), (?), (?), (?), (?), (?), (?), (?), (?), (?), (?), (?), (?), (?), (?), (?), (?)\"\nconst fieldCount = 1\nconst maxStructCount = 32\ncount := len(values)\n\tif count > maxStructCount \x7b\n\t\tcount = maxStructCount\n\t\x7d\n\targs = make([]any, 0, count*fieldCount)\n\tfor len(values) > 0 \x7b\n\t\ti := len(values)\n\t\tif i > maxStructCount \x7b\n\t\t\ti = maxStructCount\n\t\t\x7d\n\t\tvals, rest := values[:i], values[i:]\n\t\targs = args[:0]\n\t\tfor _, v := range vals \x7b\n\t\t\targs = append(args, v.Name)\n\t\t\x7d\n\t\t_, err := execer.ExecContext(ctx, q[:i*5+33], args...)\n\t\tif err != nil \x7b\n\t\t\treturn err\n\t\t\x7d\n\t\tvalues = rest\n\t\x7d\n\treturn nil\n\x7d\n\n"
      ∧ containsText (lit "\targs = make([]any, 0, count*fieldCount)\n") text = true
      ∧ containsText (lit "args :=") text = false
      ∧ containsText (lit "var args") text = false :=
  ⟨_, generateGoTableInsert_foo8, rfl, insert_foo8_assigns_args,
    insert_foo8_no_short_declaration, insert_foo8_no_var_declaration⟩

set_option maxRecDepth 100000 in
theorem insertHeadText_foo1 :
    lit "func Insert" ++ foo1.rawName
        ++ lit "(ctx context.Context, execer execer, values ...*" ++ foo1.rawName
        ++ lit ") error \x7b"
        ++ lit "const q = " ++ fmtQPlain (insertHead foo1) ++ lit "+\n"
        ++ fmtQPlain (strRepeat (strPlaceholders foo1) (maxStructCount foo1 - 1)) ++ lit "\n"
        ++ lit "const fieldCount = " ++ itoa (insertConsts foo1).fieldCount ++ lit "\n"
        ++ lit "const maxStructCount = " ++ itoa (insertConsts foo1).maxStructCount ++ lit "\n"
      = lit "func InsertFoo1(ctx context.Context, execer execer, values ...*Foo1) error \x7bconst q = \"INSERT INTO `foo1` (`id`) VALUES (?)\"+\n\", (?), (?), (?), (?), (?), (?), (?), (?), (?), (?), (?), (?), (?), (?), (?), (?), (?), (?), (?), (?), (?), (?), (?), (?), (?), (?), (?), (?), (?), (?), (?)\"\nconst fieldCount = 1\nconst maxStructCount = 32\n" := by
  decide

set_option maxRecDepth 100000 in
theorem insertLoopText_foo1 :
    insertLoopText foo1
      = lit "count := len(values)\n\tif count > maxStructCount \x7b\n\t\tcount = maxStructCount\n\t\x7d\n\targs = make([]any, 0, count*fieldCount)\n\tfor len(values) > 0 \x7b\n\t\ti := len(values)\n\t\tif i > maxStructCount \x7b\n\t\t\ti = maxStructCount\n\t\t\x7d\n\t\tvals, rest := values[:i], values[i:]\n\t\targs = args[:0]\n\t\tfor _, v := range vals \x7b\n\t\t\targs = append(args, v.ID)\n\t\t\x7d\n\t\t_, err := execer.ExecContext(ctx, q[:i*5+31], args...)\n\t\tif err != nil \x7b\n\t\t\treturn err\n\t\t\x7d\n\t\tvalues = rest\n\t\x7d\n\treturn nil\n\x7d\n\n" := by
  decide

set_option maxRecDepth 100000 in
theorem insertText_foo1_append :
    lit "func InsertFoo1(ctx context.Context, execer execer, values ...*Foo1) error \x7bconst q = \"INSERT INTO `foo1` (`id`) VALUES (?)\"+\n\", (?), (?), (?), (?), (?), (?), (?), (?), (?), (?), (?), (?), (?), (?), (?), (?), (?), (?), (?), (?), (?), (?), (?), (?), (?), (?), (?), (?), (?), (?), (?)\"\nconst fieldCount = 1\nconst maxStructCount = 32\n"
        ++ lit "count := len(values)\n\tif count > maxStructCount \x7b\n\t\tcount = maxStructCount\n\t\x7d\n\targs = make([]any, 0, count*fieldCount)\n\tfor len(values) > 0 \x7b\n\t\ti := len(values)\n\t\tif i > maxStructCount \x7b\n\t\t\ti = maxStructCount\n\t\t\x7d\n\t\tvals, rest := values[:i], values[i:]\n\t\targs = args[:0]\n\t\tfor _, v := range vals \x7b\n\t\t\targs = append(args, v.ID)\n\t\t\x7d\n\t\t_, err := execer.ExecContext(ctx, q[:i*5+31], args...)\n\t\tif err != nil \x7b\n\t\t\treturn err\n\t\t\x7d\n\t\tvalues = rest\n\t\x7d\n\treturn nil\n\x7d\n\n"
      = lit "func InsertFoo1(ctx context.Context, execer execer, values ...*Foo1) error \x7bconst q = \"INSERT INTO `foo1` (`id`) VALUES (?)\"+\n\", (?), (?), (?), (?), (?), (?), (?), (?), (?), (?), (?), (?), (?), (?), (?), (?), (?), (?), (?), (?), (?), (?), (?), (?), (?), (?), (?), (?), (?), (?), (?)\"\nconst fieldCount = 1\nconst maxStructCount = 32\ncount := len(values)\n\tif count > maxStructCount \x7b\n\t\tcount = maxStructCount\n\t\x7d\n\targs = make([]any, 0, count*fieldCount)\n\tfor len(values) > 0 \x7b\n\t\ti := len(values)\n\t\tif i > maxStructCount \x7b\n\t\t\ti = maxStructCount\n\t\t\x7d\n\t\tvals, rest := values[:i], values[i:]\n\t\targs = args[:0]\n\t\tfor _, v := range vals \x7b\n\t\t\targs = append(args, v.ID)\n\t\t\x7d\n\t\t_, err := execer.ExecContext(ctx, q[:i*5+31], args...)\n\t\tif err != nil \x7b\n\t\t\treturn err\n\t\t\x7d\n\t\tvalues = rest\n\t\x7d\n\treturn nil\n\x7d\n\n" := by
  decide

theorem generateGoTableInsert_foo1 :
    generateGoTableInsert fmtQPlain foo1
      = some (lit "func InsertFoo1(ctx context.Context, execer execer, values ...*Foo1) error \x7bconst q = \"INSERT INTO `foo1` (`id`) VALUES (?)\"+\n\", (?), (?), (?), (?), (?), (?), (?), (?), (?), (?), (?), (?), (?), (?), (?), (?), (?), (?), (?), (?), (?), (?), (?), (?), (?), (?), (?), (?), (?), (?), (?)\"\nconst fieldCount = 1\nconst maxStructCount = 32\ncount := len(values)\n\tif count > maxStructCount \x7b\n\t\tcount = maxStructCount\n\t\x7d\n\targs = make([]any, 0, count*fieldCount)\n\tfor len(values) > 0 \x7b\n\t\ti := len(values)\n\t\tif i > maxStructCount \x7b\n\t\t\ti = maxStructCount\n\t\t\x7d\n\t\tvals, rest := values[:i], values[i:]\n\t\targs = args[:0]\n\t\tfor _, v := range vals \x7b\n\t\t\targs = append(args, v.ID)\n\t\t\x7d\n\t\t_, err := execer.ExecContext(ctx, q[:i*5+31], args...)\n\t\tif err != nil \x7b\n\t\t\treturn err\n\t\t\x7d\n\t\tvalues = rest\n\t\x7d\n\treturn nil\n\x7d\n\n") := by
  have hgen : generateGoTableInsert fmtQPlain foo1
      = some (lit "func Insert" ++ foo1.rawName
        ++ lit "(ctx context.Context, execer execer, values ...*" ++ foo1.rawName
        ++ lit ") error \x7b"
        ++ lit "const q = " ++ fmtQPlain (insertHead foo1) ++ lit "+\n"
        ++ fmtQPlain (strRepeat (strPlaceholders foo1) (maxStructCount foo1 - 1)) ++ lit "\n"
        ++ lit "const fieldCount = " ++ itoa (insertConsts foo1).fieldCount ++ lit "\n"
        ++ lit "const maxStructCount = " ++ itoa (insertConsts foo1).maxStructCount ++ lit "\n"
        ++ insertLoopText foo1) := by
    unfold generateGoTableInsert
    rw [if_neg (by decide), if_neg (by decide)]
  rw [hgen, insertHeadText_foo1, insertLoopText_foo1, insertText_foo1_append]

set_option maxRecDepth 100000 in
theorem insert_foo1_returns_err_text :
    containsText (lit "_, err := execer.ExecContext(ctx, q[:i*5+31], args...)\n\t\tif err != nil \x7b\n\t\t\treturn err\n")
      (lit "func InsertFoo1(ctx context.Context, execer execer, values ...*Foo1) error \x7bconst q = \"INSERT INTO `foo1` (`id`) VALUES (?)\"+\n\", (?), (?), (?), (?), (?), (?), (?), (?), (?), (?), (?), (?), (?), (?), (?), (?), (?), (?), (?), (?), (?), (?), (?), (?), (?), (?), (?), (?), (?), (?), (?)\"\nconst fieldCount = 1\nconst maxStructCount = 32\ncount := len(values)\n\tif count > maxStructCount \x7b\n\t\tcount = maxStructCount\n\t\x7d\n\targs = make([]any, 0, count*fieldCount)\n\tfor len(values) > 0 \x7b\n\t\ti := len(values)\n\t\tif i > maxStructCount \x7b\n\t\t\ti = maxStructCount\n\t\t\x7d\n\t\tvals, rest := values[:i], values[i:]\n\t\targs = args[:0]\n\t\tfor _, v := range vals \x7b\n\t\t\targs = append(args, v.ID)\n\t\t\x7d\n\t\t_, err := execer.ExecContext(ctx, q[:i*5+31], args...)\n\t\tif err != nil \x7b\n\t\t\treturn err\n\t\t\x7d\n\t\tvalues = rest\n\t\x7d\n\treturn nil\n\x7d\n\n") = true := by
  decide

set_option maxRecDepth 100000 in
theorem insert_foo1_appends_to_args :
    containsText (lit "\t\t\targs = append(args, v.ID)\n")
      (lit "func InsertFoo1(ctx context.Context, execer execer, values ...*Foo1) error \x7bconst q = \"INSERT INTO `foo1` (`id`) VALUES (?)\"+\n\", (?), (?), (?), (?), (?), (?), (?), (?), (?), (?), (?), (?), (?), (?), (?), (?), (?), (?), (?), (?), (?), (?), (?), (?), (?), (?), (?), (?), (?), (?), (?)\"\nconst fieldCount = 1\nconst maxStructCount = 32\ncount := len(values)\n\tif count > maxStructCount \x7b\n\t\tcount = maxStructCount\n\t\x7d\n\targs = make([]any, 0, count*fieldCount)\n\tfor len(values) > 0 \x7b\n\t\ti := len(values)\n\t\tif i > maxStructCount \x7b\n\t\t\ti = maxStructCount\n\t\t\x7d\n\t\tvals, rest := values[:i], values[i:]\n\t\targs = args[:0]\n\t\tfor _, v := range vals \x7b\n\t\t\targs = append(args, v.ID)\n\t\t\x7d\n\t\t_, err := execer.ExecContext(ctx, q[:i*5+31], args...)\n\t\tif err != nil \x7b\n\t\t\treturn err\n\t\t\x7d\n\t\tvalues = rest\n\t\x7d\n\treturn nil\n\x7d\n\n") = true := by
  decide

set_option maxRecDepth 100000 in
theorem insert_foo1_no_short_declaration :
    containsText (lit "args :=")
      (lit "func InsertFoo1(ctx context.Context, execer execer, values ...*Foo1) error \x7bconst q = \"INSERT INTO `foo1` (`id`) VALUES (?)\"+\n\", (?), (?), (?), (?), (?), (?), (?), (?), (?), (?), (?), (?), (?), (?), (?), (?), (?), (?), (?), (?), (?), (?), (?), (?), (?), (?), (?), (?), (?), (?), (?)\"\nconst fieldCount = 1\nconst maxStructCount = 32\ncount := len(values)\n\tif count > maxStructCount \x7b\n\t\tcount = maxStructCount\n\t\x7d\n\targs = make([]any, 0, count*fieldCount)\n\tfor len(values) > 0 \x7b\n\t\ti := len(values)\n\t\tif i > maxStructCount \x7b\n\t\t\ti = maxStructCount\n\t\t\x7d\n\t\tvals, rest := values[:i], values[i:]\n\t\targs = args[:0]\n\t\tfor _, v := range vals \x7b\n\t\t\targs = append(args, v.ID)\n\t\t\x7d\n\t\t_, err := execer.ExecContext(ctx, q[:i*5+31], args...)\n\t\tif err != nil \x7b\n\t\t\treturn err\n\t\t\x7d\n\t\tvalues = rest\n\t\x7d\n\treturn nil\n\x7d\n\n") = false := by
  decide

set_option maxRecDepth 100000 in
theorem insert_foo1_no_var_declaration :
    containsText (lit "var args")
      (lit "func InsertFoo1(ctx context.Context, execer execer, values ...*Foo1) error \x7bconst q = \"INSERT INTO `foo1` (`id`) VALUES (?)\"+\n\", (?), (?), (?), (?), (?), (?), (?), (?), (?), (?), (?), (?), (?), (?), (?), (?), (?), (?), (?), (?), (?), (?), (?), (?), (?), (?), (?), (?), (?), (?), (?)\"\nconst fieldCount = 1\nconst maxStructCount = 32\ncount := len(values)\n\tif count > maxStructCount \x7b\n\t\tcount = maxStructCount\n\t\x7d\n\targs = make([]any, 0, count*fieldCount)\n\tfor len(values) > 0 \x7b\n\t\ti := len(values)\n\t\tif i > maxStructCount \x7b\n\t\t\ti = maxStructCount\n\t\t\x7d\n\t\tvals, rest := values[:i], values[i:]\n\t\targs = args[:0]\n\t\tfor _, v := range vals \x7b\n\t\t\targs = append(args, v.ID)\n\t\t\x7d\n\t\t_, err := execer.ExecContext(ctx, q[:i*5+31], args...)\n\t\tif err != nil \x7b\n\t\t\treturn err\n\t\t\x7d\n\t\tvalues = rest\n\t\x7d\n\treturn nil\n\x7d\n\n") = false := by
  decide

/-- C9, the code at the table foo1: generateGoTableInsert emits exactly the
text below.  The branch that returns the error of ExecContext is in the text,
but the call passes args, which the loop fills by append and which the text
declares neither by a short declaration nor by a var declaration nor as a
parameter: the generated file does not build, so the function never runs and
never returns an executor error. -/
theorem insert_foo1_args_undeclared :
    ∃ text : GoString, generateGoTableInsert fmtQPlain foo1 = some text
      ∧ text = lit "func InsertFoo1(ctx context.Context, execer execer, values ...*Foo1) error \x7bconst q = \"INSERT INTO `foo1` (`id`) VALUES (?)\"+\n\", (?), (?), (?), (?), (?), (?), (?), (?), (?), (?), (?), (?), (?), (?), (?), (?), (?), (?), (?), (?), (?), (?), (?), (?), (?), (?), (?), (?), (?), (?), (?)\"\nconst fieldCount = 1\nconst maxStructCount = 32\ncount := len(values)\n\tif count > maxStructCount \x7b\n\t\tcount = maxStructCount\n\t\x7d\n\targs = make([]any, 0, count*fieldCount)\n\tfor len(values) > 0 \x7b\n\t\ti := len(values)\n\t\tif i > maxStructCount \x7b\n\t\t\ti = maxStructCount\n\t\t\x7d\n\t\tvals, rest := values[:i], values[i:]\n\t\targs = args[:0]\n\t\tfor _, v := range vals \x7b\n\t\t\targs = append(args, v.ID)\n\t\t\x7d\n\t\t_, err := execer.ExecContext(ctx, q[:i*5+31], args...)\n\t\tif err != nil \x7b\n\t\t\treturn err\n\t\t\x7d\n\t\tvalues = rest\n\t\x7d\n\treturn nil\n\x7d\n\n"
      ∧ containsText (lit "_, err := execer.ExecContext(ctx, q[:i*5+31], args...)\n\t\tif err != nil \x7b\n\t\t\treturn err\n") text = true
      ∧ containsText (lit "\t\t\targs = append(args, v.ID)\n") text = true
      ∧ containsText (lit "args :=") text = false
      ∧ containsText (lit "var args") text = false :=
  ⟨_, generateGoTableInsert_foo1, rfl, insert_foo1_returns_err_text,
    insert_foo1_appends_to_args, insert_foo1_no_short_declaration,
    insert_foo1_no_var_declaration⟩

end Myddlmaker
